import Mathlib

/-!
Verification development for the catalog_parser repository.

This file gives a shallow embedding of the column-mapping engine
(src/utils/column_mapper.py), the price utilities (src/utils/price_utils.py),
the row-transformer value coercion (src/parsers/base_parser.py) and the
configuration tables they consume (src/config/field_mappings.py,
src/config/target_fields.py, src/config/settings.py), together with theorems
settling the frozen claims about that code.

Modelling conventions:
  * Python floats are modelled as exact rationals (all float values in the
    mapper arise from parsing decimal strings or from sums of decimal
    literals; no claim in scope depends on binary rounding).
  * Python dicts (insertion ordered) are modelled as association lists; an
    assignment replaces the first binding in place or appends a new one.
  * Python `re` is embedded by a small backtracking matcher over a regex
    AST; the patterns of src/config/field_mappings.py are transcribed into
    that AST.  All scoped patterns carry the (?i) flag and are matched
    against already lowercased text, so matching is done literally on
    lowercase characters.  The matcher is fuelled; the fuel passed at every
    call site strictly exceeds the maximal possible recursion depth
    (each nesting level either consumes a character or descends into a
    strictly smaller sub-pattern), so fuel exhaustion never occurs.
  * Configuration tables that the source imports from config.field_mappings
    but that are not defined anywhere in the repository are modelled from
    the spec; each such definition carries a doc comment starting with
    `Modelled from the spec:`.
-/

namespace CatalogParser

/-- Values of the dynamically typed cells flowing through the parser:
Python None, bool, int, float (modelled as an exact rational) or str. -/
inductive PyValue where
  | none : PyValue
  | bool : Bool → PyValue
  | int : Int → PyValue
  | float : ℚ → PyValue
  | str : String → PyValue
deriving DecidableEq, Repr

/-- Python `\s` (ASCII whitespace as produced by catalog headers). -/
def is_py_space (c : Char) : Bool :=
  c = ' ' || c = '\t' || c = '\n' || c = '\r' || c = '\x0b' || c = '\x0c'

/-- Python `\d` restricted to ASCII digits. -/
def is_py_digit (c : Char) : Bool :=
  '0' ≤ c && c ≤ '9'

/-- Python `\w`: letters, digits and underscore (inputs in scope are ASCII
plus the three currency symbols, which are not word characters). -/
def is_py_word (c : Char) : Bool :=
  is_py_digit c || ('a' ≤ c && c ≤ 'z') || ('A' ≤ c && c ≤ 'Z') || c = '_'

/-- Lowercasing a character, as Python str.lower on the character sets in
scope (ASCII letters; currency symbols and punctuation are unchanged). -/
def py_lower_char (c : Char) : Char :=
  if 'A' ≤ c && c ≤ 'Z' then Char.ofNat (c.toNat + 32) else c

def py_lower (s : List Char) : List Char := s.map py_lower_char

/-- Substring containment (Python `needle in hay`) on character lists. -/
def list_is_sublist (needle hay : List Char) : Bool :=
  (List.range (hay.length + 1)).any fun i => (hay.drop i).take needle.length = needle

/-- Python `needle in hay` for strings. -/
def str_contains (hay needle : String) : Bool :=
  list_is_sublist needle.toList hay.toList

/-- Character classes occurring in the embedded regular expressions. -/
inductive ClsKind where
  | space        -- \s
  | digit        -- \d
  | nonDigit     -- [^\d]
  | digitComma   -- [\d,]
  | currencySym  -- [\£\$\€]
  | alnumDash    -- [a-z0-9\-] (used only by spec-modelled value formats)
deriving DecidableEq, Repr

def cls_holds : ClsKind → Char → Bool
  | .space, c => is_py_space c
  | .digit, c => is_py_digit c
  | .nonDigit, c => !is_py_digit c
  | .digitComma, c => is_py_digit c || c = ','
  | .currencySym, c => c = '£' || c = '$' || c = '€'
  | .alnumDash, c => is_py_digit c || ('a' ≤ c && c ≤ 'z') || c = '-'

/-- Abstract syntax of the regular-expression fragment used by the
pattern catalog: literals, classes, concatenation, alternation, star,
option, anchors, negative lookahead, and fixed-width negative lookbehind
(whose items are literal characters or classes). -/
inductive Pat where
  | eps : Pat
  | lit : Char → Pat
  | cls : ClsKind → Pat
  | seq : Pat → Pat → Pat
  | alt : Pat → Pat → Pat
  | star : Pat → Pat
  | bol : Pat
  | eol : Pat
  | nla : Pat → Pat
  | nlb : List (Sum Char ClsKind) → Pat
deriving Repr

/-- One lookbehind item matches one character. -/
def lb_item_holds : Sum Char ClsKind → Char → Bool
  | .inl c, d => c = d
  | .inr k, d => cls_holds k d

/-- All states (consumed-prefix-reversed, remaining-suffix) reachable by
matching a pattern from the given state.  Backtracking is realised by
returning every reachable state; a regex matches iff the state list is
nonempty with a suitable continuation.  `fuel` bounds the recursion depth;
every recursive call either shrinks the pattern or (in the star case)
strictly shrinks the remaining text, so any fuel exceeding
pattern-size * (text-length + 2) is enough. -/
def m_all : Nat → Pat → List Char → List Char → List (List Char × List Char)
  | 0, _, _, _ => []
  | _ + 1, .eps, pre, rest => [(pre, rest)]
  | _ + 1, .lit c, pre, rest =>
    match rest with
    | [] => []
    | d :: ds => if c = d then [(d :: pre, ds)] else []
  | _ + 1, .cls k, pre, rest =>
    match rest with
    | [] => []
    | d :: ds => if cls_holds k d then [(d :: pre, ds)] else []
  | f + 1, .seq p q, pre, rest =>
    (m_all f p pre rest).flatMap fun s => m_all f q s.1 s.2
  | f + 1, .alt p q, pre, rest => m_all f p pre rest ++ m_all f q pre rest
  | f + 1, .star p, pre, rest =>
    (pre, rest) ::
      ((m_all f p pre rest).flatMap fun s =>
        if s.2.length < rest.length then m_all f (.star p) s.1 s.2 else [])
  | _ + 1, .bol, pre, rest => if pre = [] then [(pre, rest)] else []
  | _ + 1, .eol, pre, rest => if rest = [] then [(pre, rest)] else []
  | f + 1, .nla p, pre, rest =>
    if m_all f p pre rest = [] then [(pre, rest)] else []
  | _ + 1, .nlb items, pre, rest =>
    let before := (pre.take items.length).reverse
    if before.length = items.length
        && (List.zip items before).all (fun x => lb_item_holds x.1 x.2)
    then [] else [(pre, rest)]

/-- Size of a pattern, used to compute a sufficient fuel. -/
def pat_size : Pat → Nat
  | .eps | .lit _ | .cls _ | .bol | .eol | .nlb _ => 1
  | .seq p q | .alt p q => pat_size p + pat_size q + 1
  | .star p | .nla p => pat_size p + 1

def re_fuel (p : Pat) (s : List Char) : Nat :=
  (pat_size p + 2) * (s.length + 2)

/-- Python re.match: the pattern matches some prefix starting at offset 0
(all catalog patterns are `^(...)$`-anchored, making this a full match). -/
def re_match (p : Pat) (s : List Char) : Bool :=
  m_all (re_fuel p s) p [] s ≠ []

/-- Python re.search: the pattern matches starting at some offset. -/
def re_search (p : Pat) (s : List Char) : Bool :=
  (List.range (s.length + 1)).any fun i =>
    m_all (re_fuel p s) p ((s.take i).reverse) (s.drop i) ≠ []

/-- Literal word as a pattern. -/
def lits (s : String) : Pat :=
  (s.toList.map Pat.lit).foldr Pat.seq .eps

/-- Alternation of a nonempty list of branches (right-nested, as Python
tries branches left to right; only matching success is observed here). -/
def alts : List Pat → Pat
  | [] => .eps
  | [p] => p
  | p :: ps => .alt p (alts ps)

/-- Zero-or-more whitespace, Python `\s*`. -/
def ws0 : Pat := .star (.cls .space)

def popt (p : Pat) : Pat := .alt p .eps

def pseq : List Pat → Pat
  | [] => .eps
  | [p] => p
  | p :: ps => .seq p (pseq ps)

/-- Anchored pattern `^(...)$` as written throughout FIELD_PATTERNS. -/
def anch (p : Pat) : Pat := .seq .bol (.seq p .eol)

/-- Alternation of literal words, `(?:a|b|c)`. -/
def aw (ss : List String) : Pat := alts (ss.map lits)

/-- Optional plural, e.g. `pounds?`. -/
def plur (s : String) : Pat := .seq (lits s) (popt (.lit 's'))

/-- Negative lookbehind `(?<!word\s)` as it occurs in the catalog. -/
def lbw (s : String) : Pat :=
  .nlb (s.toList.map Sum.inl ++ [Sum.inr ClsKind.space])

/-- TARGET_FIELDS from src/config/target_fields.py. -/
def TARGET_FIELDS : List String :=
  ["SKU", "Short Description", "Long Description", "Model", "Category Group",
   "Category", "Manufacturer", "Manufacturer SKU", "Image URL", "Document Name",
   "Document URL", "Unit Of Measure", "Buy Cost", "Trade Price", "MSRP GBP",
   "MSRP USD", "MSRP EUR", "Discontinued"]

/-- PRICE_FIELDS from src/config/target_fields.py (also repeated literally in
base_parser._clean_value and price_utils.validate_price_fields). -/
def PRICE_FIELDS : List String :=
  ["Buy Cost", "Trade Price", "MSRP GBP", "MSRP USD", "MSRP EUR"]

/-- FIELD_PATTERNS from src/config/field_mappings.py, transcribed pattern by
pattern for the fields that occur in TARGET_FIELDS (pass 1 looks patterns up
only for target fields; the remaining entries of the dict are never read by
the mapper).  Every original pattern is `(?i)^(...)$`; matching is done on
already-lowercased cleaned headers, so the `(?i)` is realised by the
lowercase literals. -/
def field_patterns : String → List Pat
  | "SKU" =>
    [anch (alts [lits "sku",
        pseq [lits "item", ws0, aw ["code", "number", "#", "no"]],
        pseq [lits "product", ws0, aw ["code", "number", "#", "no"]],
        pseq [lits "part", ws0, aw ["code", "number", "#", "no"]],
        pseq [lits "stock", ws0, aw ["code", "number"]]]),
     anch (alts [pseq [lits "article", ws0, aw ["number", "code", "#", "no"]],
        pseq [lits "catalog", ws0, aw ["number", "code", "#", "no"]],
        pseq [lits "reference", ws0, aw ["number", "code"]]]),
     anch (alts [pseq [lits "inventory", ws0, aw ["number", "code", "id"]],
        lits "reference", pseq [lits "model", ws0, lits "number"],
        pseq [lits "part", ws0, lits "id"]]),
     anch (alts [lits "mpn", pseq [lits "mfr", ws0, lits "#"], lits "ean",
        lits "upc", lits "gtin", lits "isbn"]),
     anch (.seq (alts [.seq .bol (lits "product"), .seq .bol (lits "item"),
        .seq .bol (lits "part")]) .eol)]
  | "Short Description" =>
    [anch (alts [pseq [lits "short", ws0, lits "desc", popt (lits "ription")],
        pseq [lits "brief", ws0, lits "desc", popt (lits "ription")],
        lits "title", pseq [lits "product", ws0, lits "name"],
        pseq [lits "item", ws0, lits "name"], lits "name",
        pseq [lits "description", ws0, .lit '(', lits "short", .lit ')']]),
     anch (alts [pseq [lits "product", ws0, lits "title"],
        pseq [lits "item", ws0, lits "title"],
        pseq [lits "short", ws0, lits "title"],
        pseq [lits "short", ws0, lits "text"],
        lits "headline", lits "caption", lits "summary"]),
     anch (alts [lits "label", pseq [lits "display", ws0, lits "name"],
        pseq [lits "listing", ws0, lits "title"],
        pseq [lits "short", ws0, lits "name"],
        pseq [lits "brief", ws0, lits "name"]]),
     anch (pseq [lbw "long", lbw "full", lbw "detailed", lits "description",
        .nla (pseq [ws0, aw ["long", "full", "detailed"]])])]
  | "Long Description" =>
    [anch (alts [pseq [lits "long", ws0, lits "desc", popt (lits "ription")],
        pseq [lits "detailed", ws0, lits "desc", popt (lits "ription")],
        pseq [lits "full", ws0, lits "desc", popt (lits "ription")],
        pseq [lits "product", ws0, lits "desc", popt (lits "ription")],
        pseq [lits "item", ws0, lits "desc", popt (lits "ription")]]),
     anch (alts [pseq [lits "description", ws0, aw ["long", "full", "detailed"]],
        pseq [lits "full", ws0, lits "description"],
        pseq [lits "extended", ws0, lits "description"],
        pseq [lits "complete", ws0, lits "description"]]),
     anch (alts [lits "features", lits "specifications",
        .seq (lits "spec") (popt (lits "s")),
        pseq [lits "product", ws0, lits "details"],
        pseq [lits "item", ws0, lits "details"],
        pseq [lits "product", ws0, lits "information"],
        pseq [lits "technical", ws0, lits "details"]]),
     anch (alts [pseq [lits "tech", ws0, lits "specs"],
        pseq [lits "technical", ws0, lits "description"],
        pseq [lits "full", ws0, lits "text"],
        pseq [lits "product", ws0, lits "specs"],
        pseq [lits "feature", ws0, lits "list"],
        .seq (lits "specification") (popt (lits "s"))]),
     anch (alts [pseq [lits "product", ws0, lits "overview"],
        pseq [lits "detailed", ws0, lits "information"], lits "details",
        pseq [lits "product", ws0, lits "features"],
        pseq [lits "comprehensive", ws0, lits "description"]])]
  | "Model" =>
    [anch (alts [lits "model",
        pseq [lits "model", ws0, aw ["code", "number", "#", "no"]],
        pseq [lits "model", ws0, lits "name"],
        pseq [lits "model", ws0, lits "id"]]),
     anch (alts [lits "version", pseq [lits "product", ws0, lits "model"],
        pseq [lits "device", ws0, lits "model"],
        pseq [lits "model", ws0, lits "identifier"],
        pseq [lits "model", ws0, lits "designation"]]),
     anch (alts [lits "variant", pseq [lits "style", ws0, lits "number"],
        pseq [lits "style", ws0, lits "code"],
        pseq [lits "design", ws0, lits "number"],
        pseq [lits "type", ws0, lits "number"]])]
  | "Category Group" =>
    [anch (alts [pseq [lits "category", ws0, lits "group"],
        pseq [lits "main", ws0, lits "category"],
        pseq [lits "top", ws0, lits "category"],
        pseq [lits "product", ws0, lits "group"],
        lits "dept", lits "department", lits "division"]),
     anch (alts [pseq [lits "product", ws0, lits "line"],
        pseq [lits "major", ws0, lits "category"],
        pseq [lits "product", ws0, lits "class"],
        pseq [lits "primary", ws0, lits "category"],
        pseq [lits "category", ws0, lits "level", ws0, lits "1"]]),
     anch (alts [pseq [lits "top", ws0, lits "level", ws0, lits "category"],
        pseq [lits "parent", ws0, lits "category"],
        pseq [lits "category", ws0, lits "parent"],
        pseq [lits "main", ws0, lits "group"],
        pseq [lits "product", ws0, lits "area"]]),
     anch (.seq (lits "group")
        (.nla (pseq [ws0, aw ["product", "sub", "category"]])))]
  | "Category" =>
    [anch (alts [.seq (lits "category") (.nla (pseq [ws0, lits "group"])),
        pseq [lits "sub", ws0, lits "category"],
        pseq [lits "product", ws0, lits "category"],
        pseq [lits "product", ws0, lits "type"],
        pseq [lits "sub", ws0, lits "group"], lits "family"]),
     anch (alts [lits "class", lits "classification", lits "segment",
        pseq [lits "product", ws0, lits "segment"], lits "section",
        pseq [lits "category", ws0, lits "level", ws0, lits "2"]]),
     anch (alts [lits "subcategory", pseq [lits "sub", ws0, lits "classification"],
        pseq [lits "product", ws0, lits "family"],
        pseq [lits "product", ws0, lits "subdivision"],
        pseq [lits "product", ws0, lits "class"]]),
     anch (alts [lits "type", lits "level", lits "tier", lits "grouping",
        pseq [lits "product", ws0, lits "sector"]])]
  | "Manufacturer" =>
    [anch (aw ["manufacturer", "brand", "maker", "vendor", "supplier",
        "producer", "company"]),
     anch (alts [lits "oem", pseq [lits "original", ws0, lits "manufacturer"],
        lits "provider", lits "source", lits "origin",
        pseq [lits "brand", ws0, lits "name"]]),
     anch (alts [pseq [lits "made", ws0, lits "by"],
        pseq [lits "manufactured", ws0, lits "by"],
        pseq [lits "created", ws0, lits "by"],
        pseq [lits "built", ws0, lits "by"], lits "developer"])]
  | "Manufacturer SKU" =>
    [anch (alts [pseq [lits "mfr", ws0, aw ["part", "#", "number", "code", "sku"]],
        pseq [lits "manufacturer", ws0, aw ["part", "#", "number", "code", "sku"]],
        pseq [lits "vendor", ws0, aw ["part", "#", "number", "code", "sku"]],
        pseq [lits "oem", ws0, aw ["part", "#", "number", "code"]]]),
     anch (alts [pseq [lits "brand", ws0, aw ["sku", "number", "code"]],
        pseq [lits "maker", ws0, aw ["part", "#", "number", "code"]],
        pseq [lits "external", ws0, aw ["sku", "id"]]]),
     anch (alts [pseq [lits "supplier", ws0, aw ["code", "number", "id", "reference"]],
        pseq [lits "factory", ws0, aw ["code", "number", "id", "reference"]],
        pseq [lits "original", ws0, aw ["code", "number"]]]),
     anch (alts [pseq [lits "manufacturer", ws0, lits "reference"],
        pseq [lits "oem", ws0, lits "ref"],
        pseq [lits "vendor", ws0, lits "reference"],
        pseq [lits "producer", ws0, lits "code"], lits "mpn"])]
  | "Image URL" =>
    [anch (alts [pseq [lits "image", ws0, aw ["url", "link", "path", "src", "source"]],
        pseq [lits "photo", ws0, aw ["url", "link", "path", "src", "source"]],
        pseq [lits "picture", ws0, aw ["url", "link", "path", "src", "source"]]]),
     anch (alts [pseq [lits "img", ws0, aw ["url", "link", "path", "src", "source"]],
        pseq [lits "product", ws0, aw ["image", "photo", "picture"], ws0,
          popt (aw ["url", "link", "path"])]]),
     anch (aw ["image", "photo", "picture", "img", "thumbnail"] |>.alt
        (alts [pseq [lits "main", ws0, lits "image"],
          pseq [lits "product", ws0, lits "image"],
          pseq [lits "primary", ws0, lits "image"]])),
     anch (alts [pseq [lits "image", ws0, lits "location"],
        pseq [lits "photo", ws0, lits "location"],
        pseq [lits "image", ws0, lits "address"],
        pseq [lits "main", ws0, lits "photo"], lits "gallery",
        pseq [lits "image", ws0, lits "file"]])]
  | "Document Name" =>
    [anch (alts [pseq [lits "document", ws0, lits "name"],
        pseq [lits "doc", ws0, lits "name"],
        pseq [lits "file", ws0, lits "name"],
        pseq [lits "manual", ws0, lits "name"],
        pseq [lits "spec", ws0, lits "sheet", ws0, lits "name"],
        pseq [lits "document", ws0, lits "title"]]),
     anch (alts [pseq [lits "pdf", ws0, lits "name"],
        pseq [lits "attachment", ws0, lits "name"],
        pseq [lits "documentation", ws0, lits "name"], lits "document",
        pseq [lits "manual", ws0, lits "title"],
        pseq [lits "guide", ws0, lits "name"]]),
     anch (alts [pseq [lits "technical", ws0, lits "document", ws0, lits "name"],
        pseq [lits "spec", ws0, lits "name"],
        pseq [lits "whitepaper", ws0, lits "name"],
        pseq [lits "brochure", ws0, lits "name"]])]
  | "Document URL" =>
    [anch (alts [pseq [lits "document", ws0, aw ["url", "link", "path"]],
        pseq [lits "doc", ws0, aw ["url", "link", "path"]],
        pseq [lits "manual", ws0, aw ["url", "link", "path"]],
        pseq [lits "spec", ws0, aw ["url", "link", "path"]],
        pseq [lits "pdf", ws0, aw ["url", "link", "path"]]]),
     anch (alts [pseq [lits "documentation", ws0, aw ["url", "link"]],
        pseq [lits "attachment", ws0, aw ["url", "link"]],
        pseq [lits "data", ws0, lits "sheet", ws0, aw ["url", "link"]],
        pseq [lits "document", ws0, lits "url"]]),
     anch (alts [pseq [lits "technical", ws0, aw ["doc", "document", "manual"],
          ws0, aw ["url", "link"]],
        pseq [lits "guide", ws0, aw ["url", "link"]],
        pseq [lits "instruction", ws0, aw ["url", "link"]]]),
     anch (alts [pseq [lits "brochure", ws0, aw ["url", "link"]],
        pseq [lits "whitepaper", ws0, aw ["url", "link"]],
        pseq [lits "catalog", ws0, aw ["url", "link"]],
        pseq [lits "literature", ws0, aw ["url", "link"]]])]
  | "Unit Of Measure" =>
    [anch (alts [lits "uom",
        pseq [lits "unit", ws0,
          alts [pseq [lits "of", ws0, lits "measure"], lits "measure", lits "type"]],
        pseq [lits "sell", ws0, lits "unit"], lits "packaging",
        pseq [lits "pack", ws0, lits "size"],
        pseq [lits "quantity", ws0, lits "unit"]]),
     anch (alts [pseq [lits "measurement", ws0, lits "unit"],
        pseq [lits "sales", ws0, lits "unit"],
        pseq [lits "unit", ws0, lits "size"],
        pseq [lits "package", ws0, lits "type"],
        pseq [lits "qty", ws0, lits "unit"],
        pseq [lits "order", ws0, lits "unit"]]),
     anch (alts [lits "unit", pseq [lits "quantity", ws0, lits "type"],
        pseq [lits "base", ws0, lits "unit"],
        pseq [lits "stock", ws0, lits "unit"],
        pseq [lits "inventory", ws0, lits "unit"],
        pseq [lits "sales", ws0, lits "unit", ws0, lits "of", ws0, lits "measure"]]),
     anch (aw ["each", "package", "piece", "set", "case", "bottle", "box",
        "pallet", "container"])]
  | "Buy Cost" =>
    [anch (alts [pseq [aw ["buy", "cost", "wholesale", "net", "dealer", "base"],
          ws0, aw ["cost", "price"]],
        pseq [aw ["cost", "price"], ws0, aw ["to", "for"], ws0,
          aw ["buy", "dealer", "distributor", "reseller"]]]),
     anch (alts [.seq (lits "cost")
          (.nla (pseq [ws0, aw ["retail", "public", "msrp", "srp", "rrp"]])),
        pseq [lits "purchase", ws0, lits "price"],
        pseq [lits "unit", ws0, lits "cost"],
        pseq [lits "dealer", ws0, lits "cost"]]),
     anch (alts [pseq [lits "landed", ws0, lits "cost"],
        pseq [lits "acquisition", ws0, lits "cost"],
        pseq [lits "inventory", ws0, lits "cost"],
        pseq [lits "stock", ws0, lits "cost"],
        pseq [lits "internal", ws0, lits "price"]]),
     anch (alts [pseq [lits "direct", ws0, lits "cost"],
        pseq [lits "factory", ws0, lits "price"],
        pseq [lits "ex-works", ws0, lits "price"],
        pseq [lits "supply", ws0, lits "price"],
        pseq [lits "inventory", ws0, lits "value"]]),
     anch (alts [pseq [lits "procurement", ws0, aw ["cost", "price"]],
        pseq [lits "supplier", ws0, aw ["cost", "price"]],
        pseq [lits "manufacturer", ws0, aw ["cost", "price"]]])]
  | "Trade Price" =>
    [anch (alts [pseq [aw ["trade", "dealer", "distributor", "reseller", "wholesale"],
          ws0, aw ["cost", "price"]],
        pseq [lits "price", ws0, aw ["to", "for"], ws0,
          aw ["trade", "dealer", "distributor", "reseller"]]]),
     anch (alts [pseq [lits "wholesale", ws0, lits "price"],
        pseq [lits "b2b", ws0, lits "price"],
        pseq [lits "commercial", ws0, lits "price"],
        pseq [lits "partner", ws0, lits "price"],
        pseq [lits "channel", ws0, lits "price"],
        pseq [lits "business", ws0, lits "price"]]),
     anch (alts [pseq [lits "net", ws0, lits "price"],
        pseq [lits "discount", ws0, lits "price"],
        pseq [lits "special", ws0, lits "price"],
        pseq [lits "contractor", ws0, lits "price"],
        pseq [lits "pro", ws0, lits "price"],
        pseq [lits "trade", ws0, lits "discount"]]),
     anch (alts [pseq [lits "professional", ws0, lits "price"],
        pseq [lits "bulk", ws0, lits "price"],
        pseq [lits "volume", ws0, lits "price"],
        pseq [lits "non-retail", ws0, lits "price"],
        pseq [lits "trade", ws0, lits "only", ws0, lits "price"]])]
  | "MSRP GBP" =>
    [anch (pseq [aw ["msrp", "srp", "rrp", "list", "retail", "resale",
          "recommended", "suggested"], ws0, aw ["price", "cost"], ws0,
        alts [pseq [.lit '(', lits "gbp", .lit ')'], lits "gbp", lits "£",
          plur "pound"]]),
     anch (alts [pseq [aw ["price", "cost"], ws0,
          alts [lits "gbp", lits "£", plur "pound"]],
        pseq [lits "retail", ws0, lits "gbp"],
        pseq [lits "retail", ws0, lits "£"]]),
     anch (alts [pseq [lits "uk", ws0, aw ["price", "retail", "msrp", "rrp"]],
        pseq [lits "price", ws0, lits "uk"],
        pseq [lits "british", ws0, plur "pound"]]),
     anch (alts [lits "gbp", lits "£", plur "pound",
        pseq [lits "price", ws0, lits "gbp"], lits "sterling"]),
     anch (alts [pseq [aw ["price", "cost"], ws0,
          alts [pseq [lits "in", ws0, lits "gbp"],
            pseq [lits "in", ws0, plur "pound"]]],
        pseq [lits "uk", ws0, lits "retail", ws0, lits "price"]])]
  | "MSRP USD" =>
    [anch (pseq [aw ["msrp", "srp", "rrp", "list", "retail", "resale",
          "recommended", "suggested"], ws0, aw ["price", "cost"], ws0,
        alts [pseq [.lit '(', lits "usd", .lit ')'], lits "usd", lits "$",
          plur "dollar"]]),
     anch (alts [pseq [aw ["price", "cost"], ws0,
          alts [lits "usd", lits "$", plur "dollar"]],
        pseq [lits "retail", ws0, lits "usd"],
        pseq [lits "retail", ws0, lits "$"]]),
     anch (alts [pseq [lits "us", ws0, aw ["price", "retail", "msrp", "rrp"]],
        pseq [lits "price", ws0, lits "us"],
        pseq [lits "american", ws0, plur "dollar"]]),
     anch (alts [lits "usd", lits "$", plur "dollar",
        pseq [lits "price", ws0, lits "usd"]]),
     anch (alts [pseq [aw ["price", "cost"], ws0,
          alts [pseq [lits "in", ws0, lits "usd"],
            pseq [lits "in", ws0, plur "dollar"]]],
        pseq [lits "us", ws0, lits "retail", ws0, lits "price"]])]
  | "MSRP EUR" =>
    [anch (pseq [aw ["msrp", "srp", "rrp", "list", "retail", "resale",
          "recommended", "suggested"], ws0, aw ["price", "cost"], ws0,
        alts [pseq [.lit '(', lits "eur", .lit ')'], lits "eur", lits "€",
          plur "euro"]]),
     anch (alts [pseq [aw ["price", "cost"], ws0,
          alts [lits "eur", lits "€", plur "euro"]],
        pseq [lits "retail", ws0, lits "eur"],
        pseq [lits "retail", ws0, lits "€"]]),
     anch (alts [pseq [lits "eu", ws0, aw ["price", "retail", "msrp", "rrp"]],
        pseq [lits "price", ws0, lits "eu"],
        pseq [lits "european", ws0, plur "euro"]]),
     anch (alts [lits "eur", lits "€", plur "euro",
        pseq [lits "price", ws0, lits "eur"]]),
     anch (alts [pseq [aw ["price", "cost"], ws0,
          alts [pseq [lits "in", ws0, lits "eur"],
            pseq [lits "in", ws0, plur "euro"]]],
        pseq [lits "eu", ws0, lits "retail", ws0, lits "price"]])]
  | "Discontinued" =>
    [anch (alts [lits "discontinued", lits "obsolete", lits "eol",
        pseq [lits "end", ws0, lits "of", ws0, lits "life"], lits "inactive",
        lits "status", pseq [lits "discontinued", ws0, lits "flag"]]),
     anch (alts [pseq [lits "discontinued", ws0, aw ["status", "indicator", "product"]],
        pseq [lits "product", ws0, lits "status"],
        pseq [lits "availability", ws0, lits "status"]]),
     anch (alts [lits "availability", pseq [lits "in", ws0, lits "stock"],
        lits "active", pseq [lits "out", ws0, lits "of", ws0, lits "stock"],
        pseq [lits "stock", ws0, lits "status"],
        pseq [lits "inventory", ws0, lits "status"]]),
     anch (alts [lits "available", lits "obtainable", lits "procurable",
        lits "purchasable", lits "orderable",
        pseq [lits "in", ws0, lits "production"]])]
  | _ => []

/-! ## Header cleaning (ColumnMapper._clean_header) -/

/-- Python str.strip on whitespace. -/
def strip_chars (s : List Char) : List Char :=
  ((s.dropWhile is_py_space).reverse.dropWhile is_py_space).reverse

/-- Replace each maximal run of whitespace by a single space,
re.sub(r'\s+', ' ', s).  The flag records whether the previous character
was part of a whitespace run. -/
def collapse_aux : Bool → List Char → List Char
  | _, [] => []
  | prev, c :: cs =>
    if is_py_space c then
      if prev then collapse_aux true cs else ' ' :: collapse_aux true cs
    else c :: collapse_aux false cs

def collapse_ws (s : List Char) : List Char := collapse_aux false s

/-- Characters replaced by the first character-substitution of
_clean_header, re.sub of the class [_\-\.\[\]\(\)\{\}\*\+\?\^\$\|]. -/
def special_chars : List Char :=
  ['_', '-', '.', '[', ']', '(', ')', '\x7b', '\x7d', '*', '+', '?', '^', '$', '|']

/-- ColumnMapper._clean_header of src/utils/column_mapper.py: strip,
collapse whitespace, replace regex metacharacters and all remaining
non-word non-currency characters by spaces, collapse again, lowercase and
strip.  (The None / non-string guards of the Python code are outside the
model: headers are strings here.) -/
def clean_header (h : String) : List Char :=
  let s := strip_chars h.toList
  let s := collapse_ws s
  let s := s.map fun c => if special_chars.contains c then ' ' else c
  let s := s.map fun c =>
    if is_py_word c || is_py_space c || c = '£' || c = '$' || c = '€' then c
    else ' '
  let s := collapse_ws s
  let s := py_lower s
  strip_chars s

/-! ## Configuration tables

CURRENCY_INDICATORS, GENERIC_MSRP_PATTERNS, CURRENCY_VALUE_PATTERNS,
FIELD_VALUE_FORMATS, FIELD_RELATIONSHIPS and HEADER_SYNONYMS are imported by
src/utils/column_mapper.py and src/utils/price_utils.py from
config.field_mappings, but src/config/field_mappings.py defines only
FIELD_PATTERNS and ROW_PRICE_PATTERNS; the remaining tables exist in no file
of the repository and are modelled from the spec below. -/

/-- Modelled from the spec: CURRENCY_INDICATORS is absent from
src/config/field_mappings.py.  Spec §4.2: a per-currency indicator list of
"symbols, ISO codes, country/adjective words", iterated in a fixed order
with the first matching currency winning.  The three currencies are those
of the MSRP family in TARGET_FIELDS. -/
def currency_indicators : List (String × List String) :=
  [("GBP", ["£", "gbp", "pounds", "pound", "sterling", "uk"]),
   ("USD", ["$", "usd", "dollars", "dollar", "us"]),
   ("EUR", ["€", "eur", "euros", "euro", "eu"])]

def currency_inds (ccy : String) : List String :=
  (((currency_indicators.find? (·.1 = ccy)).map (·.2)).getD [])

/-- Modelled from the spec: GENERIC_MSRP_PATTERNS is absent from
src/config/field_mappings.py.  Spec §4.1 pass 2: "headers matching a
currency-agnostic retail/list/MSRP pattern set"; the phrases are those of
the currency-agnostic MSRP vocabulary of FIELD_PATTERNS["MSRP"], left
unanchored (the code accepts either re.match or re.search). -/
def generic_msrp_patterns : List Pat :=
  [lits "msrp", lits "srp", lits "rrp",
   pseq [lits "list", ws0, lits "price"],
   pseq [lits "retail", ws0, lits "price"],
   pseq [lits "resale", ws0, lits "price"],
   pseq [lits "recommended", ws0, lits "price"],
   pseq [lits "suggested", ws0, lits "price"]]

/-- Modelled from the spec: CURRENCY_VALUE_PATTERNS is absent from
src/config/field_mappings.py.  Spec §4.1 pass 3: "attempt currency
detection from cell text (counts per currency across cells)"; modelled as
the symbol and ISO-code indicators searched inside cell text. -/
def currency_value_patterns : List (String × List Pat) :=
  [("GBP", [lits "£", lits "gbp"]),
   ("USD", [lits "$", lits "usd"]),
   ("EUR", [lits "€", lits "eur"])]

/-- Modelled from the spec: FIELD_VALUE_FORMATS is absent from
src/config/field_mappings.py.  Spec §4.1 pass 3: "any unmapped field with a
known value-format (regex over cell values, e.g. SKU formats ...)";
modelled with a single SKU value format (an alphanumeric/dash token),
matched with re.match semantics. -/
def field_value_formats : List (String × List Pat) :=
  [("SKU", [.seq (.cls .alnumDash) (.star (.cls .alnumDash))])]

/-- Modelled from the spec: FIELD_RELATIONSHIPS is absent from
src/config/field_mappings.py.  Spec §4.1 pass 4: "a static table of field
affinities (e.g. MSRP often co-occurs near Buy Cost/Trade Price; SKU near
Manufacturer SKU)". -/
def field_relationships : List (String × List String) :=
  [("MSRP", ["Buy Cost", "Trade Price"]),
   ("SKU", ["Manufacturer SKU"])]

/-- Modelled from the spec: HEADER_SYNONYMS is absent from
src/config/field_mappings.py.  Spec §4.1 pass 5: "the field's name tokens
expanded through a synonym table (e.g. "price" → "cost","rate","amount")". -/
def header_synonyms : List (String × List String) :=
  [("price", ["cost", "rate", "amount"])]

/-- CONFIDENCE_THRESHOLD from src/config/settings.py line 41. -/
def CONFIDENCE_THRESHOLD : ℚ := 7/10

/-! ## Mapping results (the mutable `results` dict of map_columns)

Modelled as an insertion-ordered association list from target-field name to
(source header, confidence), with Python-dict assignment semantics. -/

/-- Python dict membership `k in d` on an association list. -/
def a_contains {α : Type} (l : List (String × α)) (k : String) : Bool :=
  l.any (·.1 = k)

/-- Python dict indexing `d.get(k)` on an association list. -/
def a_get {α : Type} (l : List (String × α)) (k : String) : Option α :=
  (l.find? (·.1 = k)).map (·.2)

/-- Python dict assignment `d[k] = v`: replace the binding in place, else
append. -/
def a_set {α : Type} (l : List (String × α)) (k : String) (v : α) :
    List (String × α) :=
  if a_contains l k then l.map fun e => if e.1 = k then (k, v) else e
  else l ++ [(k, v)]

abbrev MappingResults := List (String × String × ℚ)

def r_contains (res : MappingResults) (k : String) : Bool := a_contains res k

def r_get (res : MappingResults) (k : String) : Option (String × ℚ) :=
  a_get res k

def r_set (res : MappingResults) (k : String) (v : String × ℚ) : MappingResults :=
  a_set res k v

/-- The headers already claimed, `[v[0] for v in results.values()]`. -/
def r_headers (res : MappingResults) : List String := res.map (·.2.1)

/-- Headers claimed above a confidence bound,
`[v[0] for k, v in results.items() if v[1] > thr]`. -/
def r_high_headers (res : MappingResults) (thr : ℚ) : List String :=
  res.filterMap fun e => if e.2.2 > thr then some e.2.1 else none

/-! ## Pass 1: ColumnMapper._apply_pattern_matching -/

def best_score : Option (String × ℚ) → ℚ
  | some x => x.2
  | none => 0

/-- The inner `for pattern in patterns` loop of _apply_pattern_matching for
one header: a full re.match scores 1.0 and breaks out of the pattern loop;
otherwise, while no best_match exists yet, a re.search scores 0.8. -/
def pat_loop : List Pat → List Char → String → Option (String × ℚ) →
    Option (String × ℚ)
  | [], _, _, best => best
  | p :: ps, ch, oh, best =>
    if re_match p ch then
      if 1 > best_score best then some (oh, 1)
      else if best.isNone && re_search p ch && decide ((8:ℚ)/10 > best_score best)
      then pat_loop ps ch oh (some (oh, 8/10))
      else pat_loop ps ch oh best
    else if best.isNone && re_search p ch && decide ((8:ℚ)/10 > best_score best)
    then pat_loop ps ch oh (some (oh, 8/10))
    else pat_loop ps ch oh best

/-- The `for i, cleaned_header in enumerate(cleaned_headers)` loop of
_apply_pattern_matching: headers claimed with confidence above 0.9 are
skipped, the rest run the pattern loop, threading best_match. -/
def header_loop : List (List Char × String) → List String → List Pat →
    Option (String × ℚ) → Option (String × ℚ)
  | [], _, _, best => best
  | (ch, oh) :: rest, highs, pats, best =>
    if highs.contains oh then header_loop rest highs pats best
    else header_loop rest highs pats (pat_loop pats ch oh best)

/-- ColumnMapper._apply_pattern_matching (src/utils/column_mapper.py
lines 166-214). -/
def apply_pattern_matching (cleaned : List (List Char)) (origs : List String)
    (res : MappingResults) : MappingResults :=
  TARGET_FIELDS.foldl (fun r tf =>
    if r_contains r tf then r
    else
      match header_loop (cleaned.zip origs) (r_high_headers r (9/10))
          (field_patterns tf) none with
      | some (h, s) => if s ≥ CONFIDENCE_THRESHOLD then r_set r tf (h, s) else r
      | none => r) res

/-! ## Pass 2: ColumnMapper._handle_generic_msrp -/

/-- Currency detection of ColumnMapper._extract_header_info: the first
currency one of whose indicators occurs (case-insensitively) in the
original header text. -/
def header_currency (h : String) : Option String :=
  (currency_indicators.find? fun ci =>
    ci.2.any fun ind => list_is_sublist (py_lower ind.toList) (py_lower h.toList)).map (·.1)

/-- ColumnMapper._handle_generic_msrp (src/utils/column_mapper.py
lines 216-262): collect unclaimed headers matching a generic-MSRP pattern,
then assign each to `MSRP {currency}` (0.9) when the original header bears
a currency indicator, else to the generic bucket `MSRP` (0.8). -/
def handle_generic_msrp (cleaned : List (List Char)) (origs : List String)
    (res : MappingResults) : MappingResults :=
  if ["MSRP GBP", "MSRP USD", "MSRP EUR"].all (r_contains res) then res
  else
    let collected := (cleaned.zip origs).filter fun x =>
      !((r_headers res).contains x.2) &&
        generic_msrp_patterns.any fun p => re_match p x.1 || re_search p x.1
    collected.foldl (fun r x =>
      match header_currency x.2 with
      | some ccy =>
        let tf := "MSRP " ++ ccy
        if TARGET_FIELDS.contains tf && !(r_contains r tf)
        then r_set r tf (x.2, 9/10) else r
      | none =>
        if !(r_contains r "MSRP") then r_set r "MSRP" (x.2, 8/10) else r) res

/-! ## Python string conversion of cell values

`str(value)` is needed by _matches_field_format and _clean_value, and the
repr-based `str(data)` of a row dict by validate_price_fields.  Floats are
rendered with the fewest decimal digits that represent the rational exactly
(all floats in scope come from parsing decimal strings). -/

def py_float_str (q : ℚ) : String :=
  let sign := if q < 0 then "-" else ""
  let a : ℚ := |q|
  match (List.range 18).find? fun k => (a * ((10:ℚ))^k).den = 1 with
  | some 0 => sign ++ toString a.num ++ ".0"
  | some k =>
    let m := (a * ((10:ℚ))^k).num.toNat
    let s := toString m
    let s := if s.length ≤ k then String.mk (List.replicate (k + 1 - s.length) '0') ++ s else s
    sign ++ (s.toList.take (s.length - k)).asString ++ "." ++ (s.toList.drop (s.length - k)).asString
  | none => sign ++ toString a.num ++ "/" ++ toString a.den

def py_str : PyValue → String
  | .none => "None"
  | .bool true => "True"
  | .bool false => "False"
  | .int n => toString n
  | .float q => py_float_str q
  | .str s => s

/-- A single-quote character, used by Python repr of strings. -/
def sq : String := String.singleton (Char.ofNat 39)

def py_repr : PyValue → String
  | .str s => sq ++ s ++ sq
  | v => py_str v

/-- Python str of a dict row, "\x7bkey: value, ...\x7d" with repr of keys
and values. -/
def py_row_str (row : List (String × PyValue)) : String :=
  "\x7b" ++ String.intercalate ", "
    (row.map fun e => sq ++ e.1 ++ sq ++ ": " ++ py_repr e.2) ++ "\x7d"

/-! ## Pass 3: ColumnMapper._apply_content_based_detection -/

/-- The price-shape regex of _is_price_column,
r'(?:^|[^\d])(?:[\£\$\€])?\s*[\d,]+(?:\.\d\x7b2\x7d)?(?!\d)'. -/
def price_value_pattern : Pat :=
  pseq [alts [.bol, .cls .nonDigit], popt (.cls .currencySym), ws0,
    .cls .digitComma, .star (.cls .digitComma),
    popt (pseq [.lit '.', .cls .digit, .cls .digit]), .nla (.cls .digit)]

/-- ColumnMapper._is_price_column: more than 70% of the non-empty values
are numbers or strings containing a price-shaped token. -/
def is_price_column (col : List PyValue) : Bool :=
  let counts := col.foldl (fun (c : Nat × Nat) v =>
    match v with
    | .none => c
    | .str s => if s = "" then c
        else (if re_search price_value_pattern s.toList then c.1 + 1 else c.1, c.2 + 1)
    | _ => (c.1 + 1, c.2 + 1)) (0, 0)
  decide (0 < counts.2) && decide ((counts.1 : ℚ) / (counts.2 : ℚ) > 7/10)

/-- Python max over an item list: the first item with maximal value. -/
def max_first : List (String × Nat) → String × Nat
  | [] => ("", 0)
  | x :: xs => xs.foldl (fun b y => if y.2 > b.2 then y else b) x

/-- ColumnMapper._detect_currency_from_values: count string cells matching
each currency's value patterns (case-insensitively); return the most common
currency if it occurs at least 3 times. -/
def detect_currency_from_values (col : List PyValue) : Option String :=
  let counts := currency_value_patterns.map fun cp =>
    (cp.1, col.countP fun v =>
      match v with
      | .str s => cp.2.any fun p => re_search p (py_lower s.toList)
      | _ => false)
  let mc := max_first counts
  if mc.2 ≥ 3 then some mc.1 else none

/-- ColumnMapper._matches_field_format: more than 70% of the non-empty
values re.match one of the field's value-format patterns. -/
def matches_field_format (col : List PyValue) (field : String) : Bool :=
  match field_value_formats.find? (·.1 = field) with
  | none => false
  | some (_, pats) =>
    let counts := col.foldl (fun (c : Nat × Nat) v =>
      match v with
      | .none => c
      | v => if v = .str "" then c
          else ((if pats.any fun p => re_match p (py_lower (py_str v).toList)
                 then c.1 + 1 else c.1), c.2 + 1)) (0, 0)
    decide (0 < counts.2) && decide ((counts.1 : ℚ) / (counts.2 : ℚ) > 7/10)

/-- ColumnMapper._apply_content_based_detection (src/utils/column_mapper.py
lines 264-321): transpose the sample rows, then per unclaimed column detect
price columns (with value-level currency detection) and value-format
matches.  fields_to_check is computed once, before the column loop. -/
def apply_content_based_detection (origs : List String)
    (sample : List (List PyValue)) (res : MappingResults) : MappingResults :=
  let columns := (List.range origs.length).map fun i =>
    sample.map fun row => row.getD i .none
  let fields_to_check := TARGET_FIELDS.filter fun f =>
    !(r_contains res f) && (field_value_formats.any (·.1 = f))
  (origs.zip columns).foldl (fun r x =>
    if (r_headers r).contains x.1 then r
    else
      let r :=
        if is_price_column x.2 then
          match detect_currency_from_values x.2 with
          | some ccy =>
            let tf := "MSRP " ++ ccy
            if TARGET_FIELDS.contains tf && !(r_contains r tf)
            then r_set r tf (x.1, 17/20) else r
          | none =>
            if !(r_contains r "MSRP") then r_set r "MSRP" (x.1, 3/4) else r
        else r
      match fields_to_check.find? fun f => matches_field_format x.2 f with
      | some f => r_set r f (x.1, 8/10)
      | none => r) res

/-! ## Pass 4: ColumnMapper._apply_contextual_detection -/

/-- Python list.index: first index of an element. -/
def idx_of (l : List String) (h : String) : Nat := l.indexOf h

/-- Split on whitespace, Python str.split(). -/
def split_ws (s : List Char) : List (List Char) :=
  ((collapse_ws (strip_chars s)).foldr (fun c acc =>
    if is_py_space c then [] :: acc
    else match acc with
      | [] => [[c]]
      | w :: ws => (c :: w) :: ws) []).filter (· ≠ [])

/-- ColumnMapper._infer_price_fields (src/utils/column_mapper.py
lines 456-497): once an MSRP-family field is mapped and Buy Cost is not,
scan ±3 columns around it for an unclaimed header containing a cost-like
term and no "retail"/"list", claiming it for Buy Cost at 0.7. -/
def infer_price_fields (origs : List String) (cleaned : List (List Char))
    (res : MappingResults) : MappingResults :=
  if (["MSRP", "MSRP GBP", "MSRP USD", "MSRP EUR"].any (r_contains res)) &&
      !(r_contains res "Buy Cost") then
    let msrp_field :=
      (["MSRP", "MSRP GBP", "MSRP USD", "MSRP EUR"].find? (r_contains res)).getD ""
    match r_get res msrp_field with
    | none => res
    | some (mh, _) =>
      let mi := idx_of origs mh
      ([-3, -2, -1, 1, 2, 3] : List Int).foldl (fun r off =>
        let ci : Int := (mi : Int) + off
        if ci < 0 || ci ≥ (origs.length : Int) then r
        else
          let chh := origs.getD ci.toNat ""
          let cc := cleaned.getD ci.toNat []
          if (r_headers r).contains chh then r
          else if (["cost", "buy", "wholesale", "net", "dealer"].any fun t =>
                list_is_sublist t.toList cc) &&
              !(list_is_sublist "retail".toList cc) &&
              !(list_is_sublist "list".toList cc)
          then r_set r "Buy Cost" (chh, 7/10) else r) res
  else res

/-- ColumnMapper._apply_contextual_detection (src/utils/column_mapper.py
lines 404-454): for each mapped relationship source, scan ±2 columns for
unclaimed headers containing keywords of a related unmapped field,
accepting at 0.6 + 0.1 per keyword, capped at 0.85; then the Buy-Cost
inference sub-rule. -/
def apply_contextual_detection (origs : List String)
    (cleaned : List (List Char)) (res : MappingResults) : MappingResults :=
  let res := field_relationships.foldl (fun r rel =>
    match r_get r rel.1 with
    | none => r
    | some (fh, _) =>
      let fi := idx_of origs fh
      ([-2, -1, 0, 1, 2] : List Int).foldl (fun r2 off =>
        let ni : Int := (fi : Int) + off
        if ni = (fi : Int) || ni < 0 || ni ≥ (origs.length : Int) then r2
        else
          let nh := origs.getD ni.toNat ""
          let nc := cleaned.getD ni.toNat []
          if (r_headers r2).contains nh then r2
          else rel.2.foldl (fun r3 rf =>
            if r_contains r3 rf then r3
            else
              let kws := split_ws (py_lower rf.toList)
              let k := kws.countP fun kw => list_is_sublist kw nc
              if k > 0 then r_set r3 rf (nh, min (3/5 + (k : ℚ)/10) (17/20))
              else r3) r2) r) res
  infer_price_fields origs cleaned res

/-! ## Pass 5: ColumnMapper._apply_fuzzy_matching

String similarity uses difflib.SequenceMatcher(None, a, b).ratio().  For
the short strings in scope (well under difflib's autojunk limit of 200)
ratio is 2M/(len a + len b), where M sums the sizes of the recursively
chosen longest matching blocks; find_longest_match returns the largest
common block, ties broken towards the smallest position in a, then in b. -/

/-- Length of the longest common prefix. -/
def ext_len : List Char → List Char → Nat
  | x :: xs, y :: ys => if x = y then ext_len xs ys + 1 else 0
  | _, _ => 0

/-- difflib find_longest_match over whole strings: the (i, j, size) of the
largest common block, earliest in a then in b (strict improvement while
scanning i ascending then j ascending). -/
def find_longest (a b : List Char) : Nat × Nat × Nat :=
  (List.range a.length).foldl (fun best i =>
    (List.range b.length).foldl (fun best2 j =>
      let k := ext_len (a.drop i) (b.drop j)
      if k > best2.2.2 then (i, j, k) else best2) best) (0, 0, 0)

/-- Total size of difflib's matching blocks: recursively take the longest
block and recurse on the pieces to its left and right.  The fuel exceeds
the recursion depth (each recursive call strictly shrinks the a-side). -/
def match_sum : Nat → List Char → List Char → Nat
  | 0, _, _ => 0
  | f + 1, a, b =>
    let x := find_longest a b
    if x.2.2 = 0 then 0
    else match_sum f (a.take x.1) (b.take x.2.1) + x.2.2 +
      match_sum f (a.drop (x.1 + x.2.2)) (b.drop (x.2.1 + x.2.2))

/-- SequenceMatcher.ratio (difflib _calculate_ratio: 1.0 when both empty). -/
def seq_ratio (a b : List Char) : ℚ :=
  if a.length + b.length = 0 then 1
  else 2 * (match_sum (a.length + b.length + 1) a b : ℚ) /
    ((a.length + b.length : Nat) : ℚ)

/-- ColumnMapper._calculate_similarity: SequenceMatcher ratio on the
lowercased strings. -/
def calculate_similarity (a b : List Char) : ℚ :=
  seq_ratio (py_lower a) (py_lower b)

/-- Character n-grams of a list (empty when the list is shorter than n,
matching Python's empty range). -/
def ngrams (n : Nat) (s : List Char) : List (List Char) :=
  if s.length < n then []
  else (List.range (s.length + 1 - n)).map fun i => (s.drop i).take n

/-- ColumnMapper._calculate_ngram_similarity with n = 3: Jaccard similarity
of the character-trigram sets of the lowercased, space-stripped strings;
falls back to _calculate_similarity when either input is shorter than 3. -/
def calculate_ngram_similarity (a b : List Char) : ℚ :=
  if a.length < 3 || b.length < 3 then calculate_similarity a b
  else
    let a1 := (py_lower a).filter (· ≠ ' ')
    let b1 := (py_lower b).filter (· ≠ ' ')
    let g1 := (ngrams 3 a1).dedup
    let g2 := (ngrams 3 b1).dedup
    if g1 = [] || g2 = [] then 0
    else
      let inter := g1.filter (g2.contains ·)
      let union := (g1 ++ g2).dedup
      (inter.length : ℚ) / (union.length : ℚ)

/-- ColumnMapper._expand_with_synonyms: the keyword set extended by the
synonym table (Python set semantics: distinct elements; the keyword score
below is a sum, so iteration order is immaterial). -/
def expand_with_synonyms (kws : List (List Char)) : List (List Char) :=
  (kws ++ kws.flatMap fun kw =>
    match header_synonyms.find? fun e => e.1.toList = kw with
    | some e => e.2.map (·.toList)
    | none => []).dedup

/-- The combined fuzzy score of one header for one target field:
max(SequenceMatcher similarity, trigram similarity) plus 0.15 per exact
keyword token and 0.10 per substring keyword, capped at 1.0. -/
def fuzzy_combined (tf : String) (ch : List Char) : ℚ :=
  let ekws := expand_with_synonyms (split_ws (py_lower tf.toList))
  let simil := calculate_similarity tf.toList ch
  let ngram := calculate_ngram_similarity tf.toList ch
  let kscore := ekws.foldl (fun (acc : ℚ) kw =>
    if (split_ws ch).contains kw then acc + 3/20
    else if list_is_sublist kw ch then acc + 1/10
    else acc) 0
  min (max simil ngram + kscore) 1

/-- The header loop of _apply_fuzzy_matching for one target field: skip
headers claimed above 0.85, keep the strictly best combined score. -/
def fuzzy_pick (r : MappingResults) (tf : String)
    (pairs : List (List Char × String)) : Option (String × ℚ) :=
  pairs.foldl (fun best x =>
    if (r_high_headers r (17/20)).contains x.2 then best
    else
      if fuzzy_combined tf x.1 > best_score best
      then some (x.2, fuzzy_combined tf x.1) else best) Option.none

/-- One target field of _apply_fuzzy_matching: accept the best match when
its score reaches the threshold. -/
def fuzzy_step (pairs : List (List Char × String)) (r : MappingResults)
    (tf : String) : MappingResults :=
  match fuzzy_pick r tf pairs with
  | some (h, s) => if s ≥ CONFIDENCE_THRESHOLD then r_set r tf (h, s) else r
  | Option.none => r

/-- ColumnMapper._apply_fuzzy_matching (src/utils/column_mapper.py
lines 499-565): for each unmatched target field, score every header not
claimed above 0.85 by max(similarity, ngram) plus keyword bonuses (0.15
per exact token, 0.10 per substring), capped at 1.0; accept the best
header when its score reaches the threshold. -/
def apply_fuzzy_matching (cleaned : List (List Char)) (origs : List String)
    (res : MappingResults) : MappingResults :=
  let unmatched := TARGET_FIELDS.filter fun f => !(r_contains res f)
  if unmatched = [] then res
  else if cleaned = [] then res
  else unmatched.foldl (fuzzy_step (cleaned.zip origs)) res

/-! ## ColumnMapper.map_columns -/

/-- The `mapping_results` dict of ColumnMapper.map_columns
(src/utils/column_mapper.py lines 37-87) after all five passes: pattern
matching, generic-MSRP handling, content-based detection (only when sample
data is present and nonempty), contextual detection and fuzzy matching. -/
def mapping_results (headers : List String)
    (sample : Option (List (List PyValue))) : MappingResults :=
  let cleaned := headers.map clean_header
  let res : MappingResults := []
  let res := apply_pattern_matching cleaned headers res
  let res := handle_generic_msrp cleaned headers res
  let res :=
    match sample with
    | some rows => if rows ≠ [] then apply_content_based_detection headers rows res else res
    | none => res
  let res := apply_contextual_detection headers cleaned res
  apply_fuzzy_matching cleaned headers res

/-- ColumnMapper.map_columns: the final field mapping, dropping the
confidence scores. -/
def map_columns (headers : List String)
    (sample : Option (List (List PyValue))) : List (String × String) :=
  (mapping_results headers sample).map fun e => (e.1, e.2.1)

/-! ## PriceUtils (src/utils/price_utils.py) -/

/-- Python float() on the digit/dot strings produced by normalize_price:
at most one dot, at least one digit, digits and dots only; ValueError is
modelled as none. -/
def py_float_parse (s : List Char) : Option ℚ :=
  if s.all (fun c => is_py_digit c || c = '.') && s.count '.' ≤ 1 &&
      s.any is_py_digit then
    let intpart := s.takeWhile (· ≠ '.')
    let frac := (s.dropWhile (· ≠ '.')).drop 1
    let digval : List Char → Nat := fun l => l.foldl (fun a c => a * 10 + (c.toNat - 48)) 0
    some (mkRat (Int.ofNat (digval intpart)) 1 +
      mkRat (Int.ofNat (digval frac)) ((10:Nat)^frac.length))
  else none

/-- Python str.rindex: index of the last occurrence (callers guarantee
presence). -/
def rindex (s : List Char) (c : Char) : Nat :=
  s.length - 1 - s.reverse.indexOf c

/-- PriceUtils.normalize_price (src/utils/price_utils.py lines 21-71).
Numbers (including bools, which satisfy isinstance(value, (int, float)))
are returned as floats; strings are stripped of everything but digits,
dots and commas, the separators disambiguated (both present: the one
occurring last is the decimal point; only commas: decimal separator iff at
most 3 digits follow the last comma), then parsed; anything unparseable is
None. -/
def normalize_price : PyValue → Option ℚ
  | .none => Option.none
  | .bool b => some (if b then 1 else 0)
  | .int n => some (n : ℚ)
  | .float q => some q
  | .str s =>
    let cleaned := (strip_chars s.toList).filter fun c =>
      is_py_digit c || c = '.' || c = ','
    if cleaned = [] then Option.none
    else
      let cleaned :=
        if cleaned.contains ',' && cleaned.contains '.' then
          if rindex cleaned ',' > rindex cleaned '.' then
            (cleaned.filter (· ≠ '.')).map fun c => if c = ',' then '.' else c
          else cleaned.filter (· ≠ ',')
        else if cleaned.contains ',' then
          if (cleaned.reverse.takeWhile (· ≠ ',')).length ≤ 3 then
            cleaned.map fun c => if c = ',' then '.' else c
          else cleaned.filter (· ≠ ',')
        else cleaned
      py_float_parse cleaned

/-- PriceUtils.detect_currency (src/utils/price_utils.py lines 73-96):
first currency with an indicator occurring in the lowercased value. -/
def detect_currency (value : String) : Option String :=
  if value = "" then Option.none
  else (currency_indicators.find? fun ci =>
    ci.2.any fun ind =>
      list_is_sublist (py_lower ind.toList) (py_lower value.toList)).map (·.1)

/-! Row dictionaries (Python dict of field name to value). -/

abbrev Row := List (String × PyValue)

def d_get (d : Row) (k : String) : Option PyValue := a_get d k

def d_contains (d : Row) (k : String) : Bool := a_contains d k

def d_set (d : Row) (k : String) (v : PyValue) : Row := a_set d k v

/-- Python dict.pop(k, None): drop the binding. -/
def d_pop (d : Row) (k : String) : Row := d.filter (·.1 ≠ k)

/-- PriceUtils.validate_price_fields (src/utils/price_utils.py
lines 144-177): normalize the five price fields in place; then, when the
generic "MSRP" value is present and not None, copy it into each
currency-specific MSRP field that is absent or None and whose currency has
an indicator occurring in str(data).lower(), and finally pop the generic
key.  When data.get("MSRP") is None — including a present "MSRP" key with
value None — the whole block is skipped and the key is left in place. -/
def validate_price_fields (data : Row) : Row :=
  let data := PRICE_FIELDS.foldl (fun d f =>
    match d_get d f with
    | some v => d_set d f (match normalize_price v with
        | some q => .float q
        | Option.none => .none)
    | Option.none => d) data
  match d_get data "MSRP" with
  | some v =>
    if v ≠ .none then
      let data := ["MSRP GBP", "MSRP USD", "MSRP EUR"].foldl (fun d cf =>
        if d_get d cf = Option.none || d_get d cf = some .none then
          let ccy := ((cf.splitOn " ").getLast?).getD ""
          if (currency_inds ccy).any fun hint =>
              str_contains (String.mk (py_lower (py_row_str d).toList)) hint
          then d_set d cf v else d
        else d) data
      d_pop data "MSRP"
    else data
  | Option.none => data

/-! ## BaseParser value coercion (src/parsers/base_parser.py) -/

/-- The text fields listed in BaseParser._clean_value for numeric-to-string
conversion. -/
def text_fields : List String :=
  ["SKU", "Short Description", "Long Description", "Model", "Category Group",
   "Category", "Manufacturer", "Manufacturer SKU", "Image URL",
   "Document Name", "Document URL", "Unit Of Measure"]

def is_py_number : PyValue → Bool
  | .bool _ | .int _ | .float _ => true
  | _ => false

/-- BaseParser._clean_value (src/parsers/base_parser.py lines 176-225).
The price branch keeps the source's separator logic verbatim: it compares
the FIRST occurrence indices of comma and dot (value.index), strips commas
when the first comma comes after the first dot, and otherwise strips dots
and turns commas into dots; a lone comma always becomes a dot. -/
def clean_value (value : PyValue) (field : String) : PyValue :=
  match value with
  | .none => .none
  | value =>
    if is_py_number value && text_fields.contains field then .str (py_str value)
    else if PRICE_FIELDS.contains field then
      match value with
      | .str s =>
        let v := s.toList.filter fun c => is_py_digit c || c = '.' || c = ','
        let v :=
          if v.contains ',' && v.contains '.' then
            if v.indexOf ',' > v.indexOf '.' then v.filter (· ≠ ',')
            else (v.filter (· ≠ '.')).map fun c => if c = ',' then '.' else c
          else if v.contains ',' then v.map fun c => if c = ',' then '.' else c
          else v
        match py_float_parse v with
        | some q => .float q
        | Option.none => .none
      | value => match value with
        | .str s => .str (String.mk (strip_chars s.toList))
        | value => value
    else match value with
      | .str s => .str (String.mk (strip_chars s.toList))
      | value => value

/-- BaseParser._parse_discontinued (src/parsers/base_parser.py
lines 154-174): bools pass through, numbers are compared with 0, strings
are stripped, lowercased and tested against the fixed token set, anything
else is False. -/
def parse_discontinued : PyValue → Bool
  | .bool b => b
  | .int n => n > 0
  | .float q => q > 0
  | .str s =>
    ["yes", "y", "true", "t", "1", "discontinued", "obsolete"].contains
      (String.mk (py_lower (strip_chars s.toList)))
  | .none => false

/-! ## Spec-order pass-1 selection (comparison definition for claim C6)

This definition follows the SPEC's words, not the source: "The first
pattern in the field's list that matches any header wins (patterns are
tried in the field's priority order, not headers); among headers, the
first one encountered that satisfies the highest-scoring pattern tier is
kept."  It is compared against the source-derived header_loop. -/
def spec_pass1_pick (pats : List Pat) (pairs : List (List Char × String)) :
    Option (String × ℚ) :=
  pats.findSome? fun p =>
    match pairs.find? fun x => re_match p x.1 with
    | some x => some (x.2, 1)
    | Option.none => (pairs.find? fun x => re_search p x.1).map fun x => (x.2, (8:ℚ)/10)

/-- The rational payload of a float value, if any. -/
def float_val : PyValue → Option ℚ
  | .float q => some q
  | _ => Option.none

/-- The confidence-threshold invariant: every entry of a results dictionary
carries a confidence of at least CONFIDENCE_THRESHOLD. -/
def conf_ge (res : MappingResults) : Prop :=
  ∀ e ∈ res, CONFIDENCE_THRESHOLD ≤ e.2.2

/-- A pattern starting with the `^` anchor. -/
def starts_bol : Pat → Bool
  | .seq .bol _ => true
  | _ => false

/-! # Lemmas about the dictionary model -/

/-- An optional rational equals `some q` as soon as it is populated and its
numerator and denominator projections agree with those of q. -/
theorem option_rat_eq {x : Option ℚ} {q : ℚ} (hs : x.isSome = true)
    (h1 : (x.getD 0).num = q.num) (h2 : (x.getD 0).den = q.den) : x = some q := by
  cases x with
  | none => exact absurd hs (by simp)
  | some r =>
    simp only [Option.getD_some] at h1 h2
    rw [Rat.ext h1 h2]

theorem a_get_eq_none {α : Type} {l : List (String × α)} {k : String}
    (h : a_contains l k = false) : a_get l k = Option.none := by
  induction l with
  | nil => rfl
  | cons e t ih =>
    simp only [a_contains, List.any_cons, Bool.or_eq_false_iff] at h
    have he : ¬(e.1 = k) := by simpa using h.1
    simp only [a_get, List.find?_cons, he]
    simpa [a_get, he] using ih (by simpa [a_contains] using h.2)

theorem a_get_cons {α : Type} (e : String × α) (t : List (String × α)) (k : String) :
    a_get (e :: t) k = if e.1 = k then some e.2 else a_get t k := by
  by_cases he : e.1 = k <;> simp [a_get, List.find?_cons, he]

theorem a_contains_cons {α : Type} (e : String × α) (t : List (String × α))
    (k : String) :
    a_contains (e :: t) k = ((e.1 = k) || a_contains t k) := by
  simp [a_contains, List.any_cons]

theorem a_contains_of_get {α : Type} {l : List (String × α)} {k : String} {v : α}
    (h : a_get l k = some v) : a_contains l k = true := by
  induction l with
  | nil => simp [a_get] at h
  | cons e t ih =>
    rw [a_get_cons] at h
    rw [a_contains_cons]
    by_cases he : e.1 = k
    · simp [he]
    · rw [if_neg he] at h
      simp [he, ih h]

theorem a_mem_of_get {α : Type} {l : List (String × α)} {k : String} {v : α}
    (h : a_get l k = some v) : (k, v) ∈ l := by
  induction l with
  | nil => simp [a_get] at h
  | cons e t ih =>
    rw [a_get_cons] at h
    by_cases he : e.1 = k
    · rw [if_pos he] at h
      have : e = (k, v) := by
        cases e
        simp only [Option.some_inj] at h
        simp_all

      simp [this]
    · rw [if_neg he] at h
      exact List.mem_cons_of_mem _ (ih h)

theorem a_get_upd_eq {α : Type} (l : List (String × α)) (k : String) (v : α) :
    a_get (l.map fun e => if e.1 = k then (k, v) else e) k =
      if a_contains l k then some v else Option.none := by
  induction l with
  | nil => simp [a_get, a_contains]
  | cons e t ih =>
    rw [List.map_cons, a_get_cons, a_contains_cons]
    by_cases he : e.1 = k
    · simp [he]
    · simp [he, ih]

theorem a_get_upd_ne {α : Type} (l : List (String × α)) (k k' : String) (v : α)
    (hk : k' ≠ k) :
    a_get (l.map fun e => if e.1 = k then (k, v) else e) k' = a_get l k' := by
  induction l with
  | nil => rfl
  | cons e t ih =>
    rw [List.map_cons, a_get_cons, a_get_cons]
    by_cases he : e.1 = k
    · have h1 : ¬((k, v).1 = k') := Ne.symm hk
      have h2 : ¬(e.1 = k') := by rw [he]; exact Ne.symm hk
      simp [he, h1, h2, ih]
    · simp [he, ih]

theorem a_get_app_eq {α : Type} (l : List (String × α)) (k : String) (v : α)
    (hc : a_contains l k = false) : a_get (l ++ [(k, v)]) k = some v := by
  induction l with
  | nil => simp [a_get_cons]
  | cons e t ih =>
    rw [a_contains_cons, Bool.or_eq_false_iff] at hc
    have he : ¬(e.1 = k) := by simpa using hc.1
    rw [List.cons_append, a_get_cons, if_neg he]
    exact ih hc.2

theorem a_get_app_ne {α : Type} (l : List (String × α)) (k k' : String) (v : α)
    (hk : k' ≠ k) : a_get (l ++ [(k, v)]) k' = a_get l k' := by
  induction l with
  | nil => simp [a_get_cons, Ne.symm hk, a_get]
  | cons e t ih =>
    rw [List.cons_append, a_get_cons, a_get_cons]
    by_cases he : e.1 = k' <;> simp [he, ih]

theorem a_get_set_self {α : Type} (l : List (String × α)) (k : String) (v : α) :
    a_get (a_set l k v) k = some v := by
  unfold a_set
  by_cases hc : a_contains l k = true
  · simp [hc, a_get_upd_eq]
  · have hc' : a_contains l k = false := by simpa using hc
    simp [hc', a_get_app_eq l k v hc']

theorem a_get_set_ne {α : Type} (l : List (String × α)) (k k' : String) (v : α)
    (hk : k' ≠ k) : a_get (a_set l k v) k' = a_get l k' := by
  unfold a_set
  by_cases hc : a_contains l k = true
  · simp [hc, a_get_upd_ne l k k' v hk]
  · have hc' : a_contains l k = false := by simpa using hc
    simp [hc', a_get_app_ne l k k' v hk]

/-! # Confidence-threshold invariant (for claim C5)

Every write any pass performs into the results dictionary carries a
confidence of at least CONFIDENCE_THRESHOLD = 0.7. -/

theorem conf_ge_nil : conf_ge [] := by intro e he; simp at he

theorem conf_ge_set {res : MappingResults} {k : String} {v : String × ℚ}
    (h : conf_ge res) (hv : CONFIDENCE_THRESHOLD ≤ v.2) :
    conf_ge (r_set res k v) := by
  intro e he
  unfold r_set a_set at he
  by_cases hc : a_contains res k = true
  · simp only [hc, if_true] at he
    rcases List.mem_map.1 he with ⟨e₀, he₀, rfl⟩
    by_cases h0 : e₀.1 = k
    · simpa [h0] using hv
    · simpa [h0] using h e₀ he₀
  · have hc' : a_contains res k = false := by simpa using hc
    simp only [hc', Bool.false_eq_true, if_false] at he
    rcases List.mem_append.1 he with h1 | h1
    · exact h e h1
    · rcases List.mem_singleton.1 h1 with rfl
      exact hv

theorem conf_pattern (cl : List (List Char)) (og : List String)
    (res : MappingResults) (h : conf_ge res) :
    conf_ge (apply_pattern_matching cl og res) := by
  unfold apply_pattern_matching
  refine List.foldlRecOn _ _ _ h ?_
  intro r hr tf _
  dsimp only
  split
  · exact hr
  · split
    · split
      next hthr => exact conf_ge_set hr hthr
      · exact hr
    · exact hr

theorem conf_generic_msrp (cl : List (List Char)) (og : List String)
    (res : MappingResults) (h : conf_ge res) :
    conf_ge (handle_generic_msrp cl og res) := by
  unfold handle_generic_msrp
  split
  · exact h
  · refine List.foldlRecOn _ _ _ h ?_
    intro r hr x _
    dsimp only
    split
    · split
      · exact conf_ge_set hr (by norm_num [CONFIDENCE_THRESHOLD])
      · exact hr
    · split
      · exact conf_ge_set hr (by norm_num [CONFIDENCE_THRESHOLD])
      · exact hr

theorem conf_content (og : List String) (sample : List (List PyValue))
    (res : MappingResults) (h : conf_ge res) :
    conf_ge (apply_content_based_detection og sample res) := by
  unfold apply_content_based_detection
  refine List.foldlRecOn _ _ _ h ?_
  intro r hr x _
  dsimp only
  split
  · exact hr
  · have hmid : conf_ge (if is_price_column x.2 then
        match detect_currency_from_values x.2 with
        | some ccy =>
          if TARGET_FIELDS.contains ("MSRP " ++ ccy) && !(r_contains r ("MSRP " ++ ccy))
          then r_set r ("MSRP " ++ ccy) (x.1, 17/20) else r
        | Option.none =>
          if !(r_contains r "MSRP") then r_set r "MSRP" (x.1, 3/4) else r
      else r) := by
      split
      · split
        · split
          · exact conf_ge_set hr (by norm_num [CONFIDENCE_THRESHOLD])
          · exact hr
        · split
          · exact conf_ge_set hr (by norm_num [CONFIDENCE_THRESHOLD])
          · exact hr
      · exact hr
    split
    · exact conf_ge_set hmid (by norm_num [CONFIDENCE_THRESHOLD])
    · exact hmid

/-- The contextual-detection confidence 0.6 + 0.1k, capped at 0.85, stays
at or above the threshold whenever at least one keyword matched. -/
theorem conf_min_bound (k : Nat) (hk : 0 < k) :
    CONFIDENCE_THRESHOLD ≤ min (3/5 + (k : ℚ)/10) (17/20) := by
  have h1 : (1 : ℚ) ≤ (k : ℚ) := by exact_mod_cast hk
  refine le_min ?_ (by norm_num [CONFIDENCE_THRESHOLD])
  unfold CONFIDENCE_THRESHOLD
  linarith

theorem conf_infer (og : List String) (cl : List (List Char))
    (res : MappingResults) (h : conf_ge res) :
    conf_ge (infer_price_fields og cl res) := by
  unfold infer_price_fields
  split
  · dsimp only
    split
    · exact h
    · refine List.foldlRecOn _ _ _ h ?_
      intro r hr off _
      dsimp only
      split
      · exact hr
      · split
        · exact hr
        · split
          · exact conf_ge_set hr (by norm_num [CONFIDENCE_THRESHOLD])
          · exact hr
  · exact h

theorem conf_contextual (og : List String) (cl : List (List Char))
    (res : MappingResults) (h : conf_ge res) :
    conf_ge (apply_contextual_detection og cl res) := by
  unfold apply_contextual_detection
  refine conf_infer og cl _ ?_
  refine List.foldlRecOn _ _ _ h ?_
  intro r hr rel _
  dsimp only
  split
  · exact hr
  · refine List.foldlRecOn _ _ _ hr ?_
    intro r2 hr2 off _
    dsimp only
    split
    · exact hr2
    · split
      · exact hr2
      · refine List.foldlRecOn _ _ _ hr2 ?_
        intro r3 hr3 rf _
        dsimp only
        split
        · exact hr3
        · split
          next hk => exact conf_ge_set hr3 (conf_min_bound _ hk)
          · exact hr3

theorem conf_fuzzy (cl : List (List Char)) (og : List String)
    (res : MappingResults) (h : conf_ge res) :
    conf_ge (apply_fuzzy_matching cl og res) := by
  unfold apply_fuzzy_matching
  dsimp only
  split
  · exact h
  · split
    · exact h
    · refine List.foldlRecOn _ _ _ h ?_
      intro r hr tf _
      unfold fuzzy_step
      split
      · split
        next hthr => exact conf_ge_set hr hthr
        · exact hr
      · exact hr

/-! # Anchored patterns: re.search coincides with re.match (for claim C6)

Every pattern of FIELD_PATTERNS is written `^(...)$`, so a search at any
offset other than 0 fails at the `^` anchor.  Consequently the partial-match
branch of _apply_pattern_matching never fires for catalog patterns and all
pass-1 scores are 1.0. -/

theorem starts_bol_shape {p : Pat} (h : starts_bol p = true) :
    ∃ q, p = .seq .bol q := by
  cases p with
  | seq p1 p2 =>
    cases p1 with
    | bol => exact ⟨p2, rfl⟩
    | _ => simp [starts_bol] at h
  | _ => simp [starts_bol] at h

theorem m_all_bol_cons (f : Nat) (q : Pat) (c : Char) (pre rest : List Char) :
    m_all f (.seq .bol q) (c :: pre) rest = [] := by
  cases f with
  | zero => rfl
  | succ f =>
    cases f with
    | zero => rfl
    | succ f => simp [m_all]

theorem re_search_eq_match_of_bol (q : Pat) (s : List Char) :
    re_search (.seq .bol q) s = re_match (.seq .bol q) s := by
  unfold re_search re_match
  rw [List.range_succ_eq_map, List.any_cons]
  have hrest : (List.map Nat.succ (List.range s.length)).any (fun i =>
      m_all (re_fuel (.seq .bol q) s) (.seq .bol q) ((s.take i).reverse) (s.drop i) ≠ []) =
        false := by
    rw [List.any_eq_false]
    intro x hx
    rcases List.mem_map.1 hx with ⟨i, hi, rfl⟩
    have hi' : i < s.length := List.mem_range.1 hi
    have hlen : (s.take (i + 1)).length = i + 1 := by
      rw [List.length_take]
      omega
    have hne : (s.take (i + 1)).reverse ≠ [] := by
      intro hcon
      have := congrArg List.length hcon
      rw [List.length_reverse, hlen] at this
      simp at this
    rcases List.exists_cons_of_ne_nil hne with ⟨c, t, hct⟩
    simp [Nat.succ_eq_add_one, hct, m_all_bol_cons]
  simp only [List.take_zero, List.reverse_nil, List.drop_zero] at *
  rw [hrest, Bool.or_false]

theorem pat_loop_none (ch : List Char) (oh : String) :
    ∀ ps : List Pat, (∀ p ∈ ps, starts_bol p = true) →
      pat_loop ps ch oh Option.none =
        if ps.any (fun p => re_match p ch) then some (oh, 1) else Option.none := by
  intro ps
  induction ps with
  | nil => intro _; simp [pat_loop]
  | cons p ps ih =>
    intro hall
    rcases starts_bol_shape (hall p (List.mem_cons_self _ _)) with ⟨q, rfl⟩
    by_cases hm : re_match (.seq .bol q) ch = true
    · simp only [pat_loop, hm, List.any_cons, Bool.true_or, if_true]
      rw [if_pos]
      norm_num [best_score]
    · have hm' : re_match (.seq .bol q) ch = false := by simpa using hm
      have hs' : re_search (.seq .bol q) ch = false := by
        rw [re_search_eq_match_of_bol, hm']
      simp only [pat_loop, hm', Bool.false_eq_true, if_false, Option.isNone_none,
        hs', Bool.true_and, Bool.false_and, Bool.and_false, List.any_cons, Bool.false_or]
      exact ih fun p hp => hall p (List.mem_cons_of_mem _ hp)

theorem pat_loop_keep (ch : List Char) (oh h : String) :
    ∀ ps : List Pat, pat_loop ps ch oh (some (h, 1)) = some (h, 1) := by
  intro ps
  induction ps with
  | nil => rfl
  | cons p ps ih =>
    by_cases hm : re_match p ch = true
    · simp only [pat_loop, hm, if_true, best_score]
      rw [if_neg (by norm_num), if_neg (by simp)]
      exact ih
    · have hm' : re_match p ch = false := by simpa using hm
      simp only [pat_loop, hm', Bool.false_eq_true, if_false, Option.isNone_some,
        Bool.false_and, if_neg (by simp : ¬((false && _ && _) = true))]
      exact ih

theorem header_loop_keep (highs : List String) (pats : List Pat) (h : String) :
    ∀ pairs : List (List Char × String),
      header_loop pairs highs pats (some (h, 1)) = some (h, 1) := by
  intro pairs
  induction pairs with
  | nil => rfl
  | cons x rest ih =>
    obtain ⟨ch, oh⟩ := x
    by_cases hskip : highs.contains oh = true
    · simp only [header_loop]
      rw [if_pos hskip]
      exact ih
    · simp only [header_loop]
      rw [if_neg hskip, pat_loop_keep]
      exact ih

/-! # Fuzzy matching never reclaims a header held above the lock bound
(for claim C1) -/

theorem contains_of_mem {a : String} {l : List String} (h : a ∈ l) :
    l.contains a = true :=
  List.elem_iff.2 h

theorem not_mem_of_contains_false {a : String} {l : List String}
    (h : l.contains a = false) : a ∉ l := by
  intro hmem
  rw [contains_of_mem hmem] at h
  cases h

theorem high_contains_of_get {b : MappingResults} {f h : String} {c : ℚ}
    (hb : r_get b f = some (h, c)) (hc : 17/20 < c) :
    (r_high_headers b (17/20)).contains h = true := by
  apply contains_of_mem
  exact List.mem_filterMap.2 ⟨(f, h, c), a_mem_of_get hb, by simp [hc]⟩

theorem fuzzy_pick_eligible (r : MappingResults) (tf : String) :
    ∀ (pairs : List (List Char × String)) (acc : Option (String × ℚ)),
      (∀ y : String × ℚ, acc = some y →
        (r_high_headers r (17/20)).contains y.1 = false) →
      ∀ y : String × ℚ,
        pairs.foldl (fun best x =>
          if (r_high_headers r (17/20)).contains x.2 then best
          else
            if fuzzy_combined tf x.1 > best_score best
            then some (x.2, fuzzy_combined tf x.1) else best) acc = some y →
        (r_high_headers r (17/20)).contains y.1 = false := by
  intro pairs
  induction pairs with
  | nil => intro acc hacc y hy; exact hacc y hy
  | cons x rest ih =>
    intro acc hacc y hy
    rw [List.foldl_cons] at hy
    refine ih _ ?_ y hy
    intro z hz
    by_cases hskip : (r_high_headers r (17/20)).contains x.2 = true
    · rw [if_pos hskip] at hz
      exact hacc z hz
    · have hskip' : (r_high_headers r (17/20)).contains x.2 = false := by
        simpa using hskip
      rw [if_neg hskip] at hz
      by_cases hgt : fuzzy_combined tf x.1 > best_score acc
      · rw [if_pos hgt] at hz
        obtain rfl : z = (x.2, fuzzy_combined tf x.1) := by simpa using hz.symm
        exact hskip'
      · rw [if_neg hgt] at hz
        exact hacc z hz

theorem header_loop_first (pats : List Pat)
    (hanch : ∀ p ∈ pats, starts_bol p = true) (highs : List String) :
    ∀ pairs : List (List Char × String),
      header_loop pairs highs pats Option.none =
        (pairs.find? fun x =>
          !(highs.contains x.2) && pats.any fun p => re_match p x.1).map
          fun x => (x.2, (1 : ℚ)) := by
  intro pairs
  induction pairs with
  | nil => rfl
  | cons x rest ih =>
    obtain ⟨ch, oh⟩ := x
    by_cases hskip : highs.contains oh = true
    · simp only [header_loop]
      rw [if_pos hskip, ih, List.find?_cons]
      have h1 : (!highs.contains oh && pats.any fun p => re_match p ch) = false := by
        simp [List.elem_iff.1 hskip]
      rw [h1]
    · have hskip' : highs.contains oh = false := by simpa using hskip
      simp only [header_loop]
      rw [if_neg hskip, pat_loop_none ch oh pats hanch, List.find?_cons]
      by_cases hm : (pats.any fun p => re_match p ch) = true
      · rw [if_pos hm]
        have h1 : (!highs.contains oh && pats.any fun p => re_match p ch) = true := by
          simp [not_mem_of_contains_false hskip', hm]
        rw [header_loop_keep, h1]
        rfl
      · have hm' : (pats.any fun p => re_match p ch) = false := by simpa using hm
        rw [if_neg hm]
        have h1 : (!highs.contains oh && pats.any fun p => re_match p ch) = false := by
          simp [hm']
        rw [h1]
        exact ih

/-! # Pop removes the generic key (for claim C8) -/

theorem a_get_pop_self (d : Row) (k : String) :
    a_get (d.filter fun e => e.1 ≠ k) k = Option.none := by
  induction d with
  | nil => rfl
  | cons e t ih =>
    by_cases he : e.1 = k
    · simpa [List.filter_cons, he] using ih
    · simpa [List.filter_cons, he, a_get_cons] using ih

/-- The price-normalization loop of validate_price_fields touches only the
listed fields, so the binding of any other key survives it. -/
theorem price_fold_preserves (fs : List String) (hfs : ∀ f ∈ fs, ¬ f = "MSRP") :
    ∀ (d : Row) (v : PyValue), d_get d "MSRP" = some v →
      d_get (fs.foldl (fun d f =>
        match d_get d f with
        | some w => d_set d f (match normalize_price w with
            | some q => .float q
            | Option.none => .none)
        | Option.none => d) d) "MSRP" = some v := by
  induction fs with
  | nil => intro d v hv; exact hv
  | cons f fs ih =>
    intro d v hv
    rw [List.foldl_cons]
    refine ih (fun f' hf' => hfs f' (List.mem_cons_of_mem _ hf')) _ v ?_
    have hne : ("MSRP" : String) ≠ f := fun hEq => hfs f (List.mem_cons_self _ _) hEq.symm
    cases hw : d_get d f with
    | none => exact hv
    | some w =>
      show a_get (a_set d f _) "MSRP" = some v
      rw [a_get_set_ne _ _ _ _ hne]
      exact hv

/-! # The claims -/

set_option maxRecDepth 100000 in
/-- C1, counterexample: the claim says map_columns never assigns the same
source header to two different target fields, but on the single header
"Documents" the fuzzy pass assigns both Document Name and Document URL to
it (the first claim's confidence, 91/110, is not above the 0.85 skip
bound, so the header stays available to later fields). -/
theorem c1_exclusivity_counterexample :
    ("Document Name", "Documents") ∈ map_columns ["Documents"] Option.none ∧
    ("Document URL", "Documents") ∈ map_columns ["Documents"] Option.none ∧
    "Document Name" ≠ "Document URL" := by
  with_unfolding_all decide

/-- C1, amended: exclusivity holds only against the lock bound — the fuzzy
pass never claims, for a previously unmapped target field, a source header
already held by some field with confidence strictly above 0.85; headers
held at or below 0.85 may be re-assigned, as the counterexample shows. -/
theorem c1_fuzzy_lock (cleaned : List (List Char)) (origs : List String)
    (res : MappingResults) (f h : String) (c : ℚ)
    (hf : r_get res f = some (h, c)) (hc : 17/20 < c)
    (g : String) (hg : r_contains res g = false) (h' : String) (c' : ℚ)
    (hget : r_get (apply_fuzzy_matching cleaned origs res) g = some (h', c')) :
    h' ≠ h := by
  have hfc : r_contains res f = true := a_contains_of_get hf
  unfold apply_fuzzy_matching at hget
  dsimp only at hget
  by_cases hu : (TARGET_FIELDS.filter fun f => !(r_contains res f)) = []
  · rw [if_pos hu] at hget
    rw [show r_get res g = Option.none from a_get_eq_none hg] at hget
    cases hget
  · rw [if_neg hu] at hget
    by_cases hcl : cleaned = []
    · rw [if_pos hcl] at hget
      rw [show r_get res g = Option.none from a_get_eq_none hg] at hget
      cases hget
    · rw [if_neg hcl] at hget
      have hP : ∀ (l : List String), (∀ tf ∈ l, r_contains res tf = false) →
          ∀ b : MappingResults, r_get b f = some (h, c) →
          (∀ g', r_contains res g' = false →
            ∀ y : String × ℚ, r_get b g' = some y → y.1 ≠ h) →
          r_get (l.foldl (fuzzy_step (cleaned.zip origs)) b) f = some (h, c) ∧
          ∀ g', r_contains res g' = false →
            ∀ y : String × ℚ,
              r_get (l.foldl (fuzzy_step (cleaned.zip origs)) b) g' = some y →
              y.1 ≠ h := by
        intro l
        induction l with
        | nil => intro _ b hb1 hb2; exact ⟨hb1, hb2⟩
        | cons tf rest ih =>
          intro hl b hb1 hb2
          rw [List.foldl_cons]
          have htf' : r_contains res tf = false := hl tf (List.mem_cons_self _ _)
          have htfne : f ≠ tf := by
            intro hEq
            rw [← hEq, hfc] at htf'
            cases htf'
          have hrest : ∀ tf' ∈ rest, r_contains res tf' = false :=
            fun tf' htf' => hl tf' (List.mem_cons_of_mem _ htf')
          have hstep :
              r_get (fuzzy_step (cleaned.zip origs) b tf) f = some (h, c) ∧
              ∀ g', r_contains res g' = false →
                ∀ y : String × ℚ,
                  r_get (fuzzy_step (cleaned.zip origs) b tf) g' = some y →
                  y.1 ≠ h := by
            unfold fuzzy_step
            cases hpick : fuzzy_pick b tf (cleaned.zip origs) with
            | none => exact ⟨hb1, hb2⟩
            | some bs =>
              obtain ⟨bh, bsc⟩ := bs
              dsimp only
              by_cases hthr : bsc ≥ CONFIDENCE_THRESHOLD
              · rw [if_pos hthr]
                have hbh : (r_high_headers b (17/20)).contains bh = false := by
                  have := fuzzy_pick_eligible b tf (cleaned.zip origs) Option.none
                    (fun y hy => by cases hy) (bh, bsc) hpick
                  simpa using this
                refine ⟨?_, ?_⟩
                · rw [show r_get (r_set b tf (bh, bsc)) f = r_get b f from
                    a_get_set_ne _ _ _ _ htfne]
                  exact hb1
                · intro g' hg' y hy
                  by_cases hgtf : g' = tf
                  · subst hgtf
                    rw [show r_get (r_set b g' (bh, bsc)) g' = some (bh, bsc) from
                      a_get_set_self _ _ _] at hy
                    have hy' : y = (bh, bsc) := by
                      injection hy with hy2
                      exact hy2.symm
                    subst hy'
                    intro hEq
                    have hEq' : bh = h := hEq
                    have hhigh : (r_high_headers b (17/20)).contains h = true :=
                      high_contains_of_get hb1 hc
                    rw [hEq', hhigh] at hbh
                    cases hbh
                  · rw [show r_get (r_set b tf (bh, bsc)) g' = r_get b g' from
                      a_get_set_ne _ _ _ _ hgtf] at hy
                    exact hb2 g' hg' y hy
              · rw [if_neg hthr]
                exact ⟨hb1, hb2⟩
          exact ih hrest _ hstep.1 hstep.2
      have hfilter : ∀ tf ∈ (TARGET_FIELDS.filter fun f => !(r_contains res f)),
          r_contains res tf = false := by
        intro tf htf
        have := (List.mem_filter.1 htf).2
        simpa using this
      have hbase : ∀ g', r_contains res g' = false →
          ∀ y : String × ℚ, r_get res g' = some y → y.1 ≠ h := by
        intro g' hg' y hy
        rw [show r_get res g' = Option.none from a_get_eq_none hg'] at hy
        cases hy
      exact (hP _ hfilter res hf hbase).2 g hg (h', c') hget

set_option maxRecDepth 100000 in
/-- C1, amended, witness: with "Costing" held for Buy Cost at 0.9 (above
the lock bound), the fuzzy pass maps Document Name to "Documents", which
the theorem guarantees is a different header. -/
theorem c1_fuzzy_lock_witness : "Documents" ≠ "Costing" :=
  c1_fuzzy_lock [clean_header "Costing", clean_header "Documents"]
    ["Costing", "Documents"] [("Buy Cost", "Costing", 9/10)]
    "Buy Cost" "Costing" (9/10) (by with_unfolding_all decide) (by norm_num)
    "Document Name" (by with_unfolding_all decide) "Documents" (91/110)
    (by with_unfolding_all decide)

end CatalogParser

namespace CatalogParser

set_option maxRecDepth 100000 in
/-- C2, counterexample: the claim expects normalize_price("$1,000") to be
1000.0, but the code's comma rule (decimal separator when at most 3 digits
follow the last comma) turns "1,000" into "1.000", i.e. the float 1.0. -/
theorem c2_price_parsing_counterexample :
    normalize_price (PyValue.str "$1,000") = some (1 : ℚ) ∧
    ¬ normalize_price (PyValue.str "$1,000") = some (1000 : ℚ) := by
  with_unfolding_all decide

set_option maxRecDepth 100000 in
/-- C2, amended: normalize_price returns 1234.56 on "1.234,56" and on
"1,234.56", 1.0 (not 1000.0) on "$1,000", and None on "" and on "abc". -/
theorem c2_price_parsing_amended :
    normalize_price (PyValue.str "1.234,56") = some (123456/100 : ℚ) ∧
    normalize_price (PyValue.str "1,234.56") = some (123456/100 : ℚ) ∧
    normalize_price (PyValue.str "$1,000") = some (1 : ℚ) ∧
    normalize_price (PyValue.str "") = Option.none ∧
    normalize_price (PyValue.str "abc") = Option.none := by
  refine ⟨option_rat_eq ?_ ?_ ?_, option_rat_eq ?_ ?_ ?_, ?_, ?_, ?_⟩ <;>
    with_unfolding_all decide

set_option maxRecDepth 100000 in
/-- C3, counterexample: the claim's scenario asserts that "Cost to Dealer"
is unmatched by the regex passes and is mapped by a sixth, classifier
pass; in fact the very first pattern pass fully matches it for Buy Cost
(pattern `(?:cost|price)\s*(?:to|for)\s*(?:buy|dealer|...)`) with
confidence 1.0. -/
theorem c3_fallback_counterexample :
    r_get (apply_pattern_matching [clean_header "Cost to Dealer"]
      ["Cost to Dealer"] []) "Buy Cost" = some ("Cost to Dealer", 1) := by
  with_unfolding_all decide

set_option maxRecDepth 100000 in
/-- C3, amended: map_columns consists of the five passes ending with fuzzy
matching — no statistical classifier runs (ml_model.get_fallback_model is
never invoked by the mapper) — and "Cost to Dealer" is mapped to Buy Cost
by the regex pattern pass, yielding exactly that mapping. -/
theorem c3_no_fallback_amended :
    map_columns ["Cost to Dealer"] Option.none =
      [("Buy Cost", "Cost to Dealer")] := by
  with_unfolding_all decide

set_option maxRecDepth 100000 in
/-- C4, code bug: for the price field Buy Cost on the string "1.234,56",
BaseParser._clean_value returns 1.23456 while PriceUtils.normalize_price
returns 1234.56.  _clean_value compares FIRST-occurrence separator indices
and its branches are swapped relative to its own comments ("Format like
1,234.56" annotates the branch its condition selects for "1.234,56"), so
it strips the commas of a European-format price instead of its dots. -/
theorem c4_clean_value_divergence :
    float_val (clean_value (PyValue.str "1.234,56") "Buy Cost") = some (123456/100000 : ℚ) ∧
    normalize_price (PyValue.str "1.234,56") = some (123456/100 : ℚ) ∧
    ¬ (123456/100000 : ℚ) = (123456/100 : ℚ) := by
  refine ⟨option_rat_eq ?_ ?_ ?_, option_rat_eq ?_ ?_ ?_,
    fun hEq => absurd (congrArg Rat.num hEq) ?_⟩ <;>
    with_unfolding_all decide

/-- C5: every entry of the results dictionary produced by any pass of
map_columns carries a confidence of at least CONFIDENCE_THRESHOLD, whose
value is 0.7. -/
theorem c5_threshold_invariant :
    CONFIDENCE_THRESHOLD = 7/10 ∧
    ∀ (headers : List String) (sample : Option (List (List PyValue)))
      (e : String × String × ℚ), e ∈ mapping_results headers sample →
      CONFIDENCE_THRESHOLD ≤ e.2.2 := by
  refine ⟨rfl, ?_⟩
  intro headers sample e he
  have hinv : conf_ge (mapping_results headers sample) := by
    unfold mapping_results
    dsimp only
    apply conf_fuzzy
    apply conf_contextual
    cases sample with
    | none => exact conf_generic_msrp _ _ _ (conf_pattern _ _ _ conf_ge_nil)
    | some rows =>
      dsimp only
      split
      · exact conf_content _ _ _
          (conf_generic_msrp _ _ _ (conf_pattern _ _ _ conf_ge_nil))
      · exact conf_generic_msrp _ _ _ (conf_pattern _ _ _ conf_ge_nil)
  exact hinv e he

set_option maxRecDepth 100000 in
/-- C5, witness: on the single header "Cost" the pattern pass produces the
entry (Buy Cost, "Cost", 1.0), whose confidence the theorem bounds below
by the threshold. -/
theorem c5_threshold_invariant_witness : CONFIDENCE_THRESHOLD ≤ (1 : ℚ) :=
  c5_threshold_invariant.2 ["Cost"] Option.none ("Buy Cost", "Cost", 1)
    (by with_unfolding_all decide)

set_option maxRecDepth 100000 in
/-- C6, counterexample: the claim says the winner among several matching
headers is decided by the field's pattern priority order, not header
position.  For Buy Cost with headers ["Cost", "Dealer Price"], the
spec-order rule (patterns outer) picks "Dealer Price" — the first pattern
matches it and not "Cost" — while the code (headers outer, patterns inner)
picks "Cost", the first matching header. -/
theorem c6_priority_counterexample :
    spec_pass1_pick (field_patterns "Buy Cost")
      [(clean_header "Cost", "Cost"), (clean_header "Dealer Price", "Dealer Price")] =
      some ("Dealer Price", 1) ∧
    header_loop
      [(clean_header "Cost", "Cost"), (clean_header "Dealer Price", "Dealer Price")]
      [] (field_patterns "Buy Cost") Option.none = some ("Cost", 1) ∧
    ¬ ("Cost" : String) = "Dealer Price" := by
  with_unfolding_all decide

/-- C6, amended: full matches score 1.0 (with every catalog pattern
anchored `^...$`, a substring-only match — scored 0.8 in the code — can
never occur), and the winner for a field is the FIRST header, in header
order, that is not claimed above 0.9 and fully matches any of the field's
patterns; pattern priority does not override header order. -/
theorem c6_first_header_wins (pats : List Pat)
    (hanch : ∀ p ∈ pats, starts_bol p = true)
    (pairs : List (List Char × String)) (highs : List String) :
    header_loop pairs highs pats Option.none =
      (pairs.find? fun x =>
        !(highs.contains x.2) && pats.any fun p => re_match p x.1).map
        fun x => (x.2, (1 : ℚ)) :=
  header_loop_first pats hanch highs pairs

set_option maxRecDepth 100000 in
/-- C6, amended, witness: for Buy Cost on ["Cost", "Dealer Price"], the
first matching header "Cost" wins with score 1.0. -/
theorem c6_first_header_wins_witness :
    header_loop
      [(clean_header "Cost", "Cost"), (clean_header "Dealer Price", "Dealer Price")]
      [] (field_patterns "Buy Cost") Option.none = some ("Cost", 1) := by
  rw [c6_first_header_wins (field_patterns "Buy Cost")
    (by with_unfolding_all decide) _ []]
  with_unfolding_all decide

/-- C7: map_columns never raises — in this model it is a total function —
and on the empty headers list it returns the empty mapping whatever the
sample data is; an unmapped target field is simply absent from the result. -/
theorem c7_empty_headers :
    ∀ sample : Option (List (List PyValue)), map_columns [] sample = [] := by
  intro sample
  cases sample with
  | none => with_unfolding_all rfl
  | some rows =>
    cases rows with
    | nil => with_unfolding_all rfl
    | cons r rs => with_unfolding_all rfl

set_option maxRecDepth 100000 in
/-- C8, counterexample: the claim says the record emitted by
validate_price_fields never contains the generic key "MSRP"; but when the
stored value is None, data.get("MSRP") is None, the whole reconciliation
block (including the pop) is skipped, and the key survives. -/
theorem c8_generic_msrp_counterexample :
    d_get (validate_price_fields [("MSRP", PyValue.none)]) "MSRP" =
      some PyValue.none ∧
    validate_price_fields [("MSRP", PyValue.none)] = [("MSRP", PyValue.none)] := by
  with_unfolding_all decide

/-- C8, amended: whenever the generic MSRP value is present and non-null,
validate_price_fields removes the key "MSRP" from the emitted record (its
value having been copied into each currency-specific MSRP field that was
absent or null and whose currency hint occurs in the row's serialized
values); a null-valued "MSRP" key is left in place, as the counterexample
shows. -/
theorem c8_msrp_removed_amended (d : Row) (v : PyValue)
    (hv : d_get d "MSRP" = some v) (hne : v ≠ PyValue.none) :
    d_get (validate_price_fields d) "MSRP" = Option.none := by
  unfold validate_price_fields
  dsimp only
  have hpres := price_fold_preserves PRICE_FIELDS (by decide) d v hv
  rw [hpres]
  dsimp only
  rw [if_pos hne]
  exact a_get_pop_self _ _

/-- C8, amended, witness: a row holding a non-null generic MSRP value loses
the "MSRP" key. -/
theorem c8_msrp_removed_amended_witness :
    d_get (validate_price_fields [("MSRP", PyValue.float 5)]) "MSRP" =
      Option.none :=
  c8_msrp_removed_amended [("MSRP", PyValue.float 5)] (PyValue.float 5)
    (by with_unfolding_all decide) (by decide)

set_option maxRecDepth 100000 in
/-- C9: on the headers ["SKU", "Product Name", "Cost", "RRP £"] with no
sample rows, map_columns contains SKU→"SKU", Short Description→"Product
Name", Buy Cost→"Cost" (all by the pattern pass) and MSRP GBP→"RRP £" (by
the generic-MSRP pass, using the £ currency indicator). -/
theorem c9_exact_match_scenario :
    ("SKU", "SKU") ∈ map_columns ["SKU", "Product Name", "Cost", "RRP £"] Option.none ∧
    ("Short Description", "Product Name") ∈
      map_columns ["SKU", "Product Name", "Cost", "RRP £"] Option.none ∧
    ("Buy Cost", "Cost") ∈
      map_columns ["SKU", "Product Name", "Cost", "RRP £"] Option.none ∧
    ("MSRP GBP", "RRP £") ∈
      map_columns ["SKU", "Product Name", "Cost", "RRP £"] Option.none := by
  with_unfolding_all decide

/-- C10: BaseParser._parse_discontinued is total — a bool is returned
unchanged, an int or float is true exactly when positive, a string is true
exactly when its trimmed lowercased form is one of yes/y/true/t/1/
discontinued/obsolete, and None yields false. -/
theorem c10_parse_discontinued_total :
    (∀ b : Bool, parse_discontinued (.bool b) = b) ∧
    (∀ n : Int, (parse_discontinued (.int n) = true ↔ 0 < n)) ∧
    (∀ q : ℚ, (parse_discontinued (.float q) = true ↔ 0 < q)) ∧
    (∀ s : String, (parse_discontinued (.str s) = true ↔
      String.mk (py_lower (strip_chars s.toList)) ∈
        (["yes", "y", "true", "t", "1", "discontinued", "obsolete"] : List String))) ∧
    parse_discontinued .none = false := by
  refine ⟨fun b => rfl, fun n => ?_, fun q => ?_, fun s => ?_, rfl⟩
  · simp [parse_discontinued]
  · simp [parse_discontinued]
  · simp only [parse_discontinued]
    constructor
    · intro hcont
      exact List.elem_iff.1 hcont
    · intro hmem
      exact List.elem_iff.2 hmem

end CatalogParser
